import Mathlib

/-!
Verification of the NodeHexa pathTool gait compiler.

Shallow embedding of workspace/pathTool/src (models/quad.py,
models/quad_gait.py, models/hexapod.py, path_tool_cli.py).  Floating point
numbers are modelled as elements of a linear ordered field; the data
processing layer (entry selection, pose matching, variant transforms) is
kept polymorphic so that it can be evaluated on rational inputs, while the
trigonometric waveform synthesis is instantiated at the real numbers.
-/

set_option maxRecDepth 4000

namespace NodeHexa

/-- Three-dimensional point, an (x, y, z) coordinate triple. -/
abbrev Point (K : Type) := K × K × K

/-- Per-leg quadruped path data, indexed leg first: data[4][N][3]. -/
abbrev QuadData (K : Type) := Fin 4 → List (Point K)

section Generic

variable {K : Type} [LinearOrderedField K]

/-- Cyclic right rotation of a list, mirroring right_rotate_path in
quad_gait.py: path[(len-k):] + path[:(len-k)]. -/
def right_rotate_path {α : Type} (path : List α) (k : ℕ) : List α :=
  path.drop (path.length - k) ++ path.take (path.length - k)

/-- Cyclic left rotation of a list, mirroring left_rotate_path in
creep_gait: path[k:] + path[:k]. -/
def left_rotate_path {α : Type} (path : List α) (k : ℕ) : List α :=
  path.drop k ++ path.take k

/-- Tolerance constant 1e-6 used by choose_start_index_from_fr. -/
def tol : K := 1 / 1000000

/-- The local dzs of choose_start_index_from_fr: the z displacement of
every frame of the reference leg. -/
def dz_list (d : List (Point K)) : List K := d.map (fun v => v.2.2)

/-- The local max_dz of choose_start_index_from_fr; the Python max over
the nonempty dz list is modelled as a fold of max seeded with the head. -/
def max_dz (d : List (Point K)) : K := (dz_list d).foldl max ((dz_list d).headD 0)

/-- The local cand of choose_start_index_from_fr: all frame indices whose
z displacement is within the 1e-6 tolerance of the maximum. -/
def cand_list (d : List (Point K)) : List ℕ :=
  (List.range d.length).filter (fun i => |(dz_list d).getD i 0 - max_dz d| ≤ tol)

/-- The local best of choose_start_index_from_fr: the candidate with the
smallest absolute y displacement; the Python min with a key keeps the
first strictly smaller key, modelled as a fold seeded with the head of
the candidate list (nonempty in every reachable call). -/
def best_cand (d : List (Point K)) : ℕ :=
  (cand_list d).foldl
    (fun b i => if |(d.getD i (0, 0, 0)).2.1| < |(d.getD b (0, 0, 0)).2.1| then i else b)
    ((cand_list d).headD 0)

/-- Mirrors choose_start_index_from_fr in models/quad.py: pick the frame
where the reference leg z displacement is highest, candidates within the
1e-6 tolerance of the maximum, breaking ties by the smallest absolute y
displacement; return -1 when the list is empty or the leg never lifts
above tolerance. -/
def choose_start_index_from_fr (d : List (Point K)) : ℤ :=
  if d.isEmpty then -1
  else if max_dz d ≤ tol then -1
  else (best_cand d : ℤ)

/-- Start index with fallback and clamping as computed in
generate_all_gaits (both the forward branch and compute_entries_for_data):
fall back to n / max 1 (2 * stages) when the selector returns -1, clamp
negative values to 0 and out-of-range values to 0. -/
def start_index (d : List (Point K)) (n stages : ℕ) : ℕ :=
  let s0 : ℤ := choose_start_index_from_fr d
  let s1 : ℤ := if s0 < 0 then ((n / max 1 (2 * stages) : ℕ) : ℤ) else s0
  let s2 : ℤ := if s1 < 0 then 0 else s1
  let s3 : ℤ := if n ≤ s2 then 0 else s2
  s3.toNat

/-- Entry list for a trajectory of n frames whose reference leg data is d,
as computed in generate_all_gaits: the start index plus the opposite-phase
candidate (start + n / 2) mod n, collapsing to one entry when n < 2. -/
def compute_entries_core (d : List (Point K)) (n stages : ℕ) : List ℕ :=
  let s := start_index d n stages
  let h := (s + n / 2) % max 1 n
  if 2 ≤ n then [s, h] else [s]

/-- Entry list used for the forwardfast table in generate_all_gaits: no
stage-based fallback, a negative or out-of-range selector result falls to
0 directly. -/
def compute_entries_fast (d : List (Point K)) (n : ℕ) : List ℕ :=
  let s0 : ℤ := choose_start_index_from_fr d
  let s : ℕ := if s0 < 0 ∨ (n : ℤ) ≤ s0 then 0 else s0.toNat
  let h := (s + n / 2) % max 1 n
  if 2 ≤ n then [s, h] else [s]

end Generic

section PoseMatching

variable {K : Type} [LinearOrderedField K] [FloorRing K]

/-- Round a coordinate to four decimal places, modelling round(x, 4) used
by pose_key in models/quad.py. -/
def round4 (x : K) : K := ((round (x * 10000) : ℤ) : K) / 10000

/-- Mirrors pose_key in models/quad.py: the full per-leg displacement
triple set of frame idx, each coordinate rounded to four decimals.  The
Python tuple over the four legs is modelled as a list. -/
def pose_key (d : QuadData K) (idx : ℕ) : List (Point K) :=
  (List.finRange 4).map (fun leg =>
    let p := (d leg).getD idx (0, 0, 0)
    (round4 p.1, round4 p.2.1, round4 p.2.2))

/-- First index at or after j among the next fuel indices satisfying p,
modelling the early-return for loop of find_matching_index. -/
def first_match_from (p : ℕ → Bool) : ℕ → ℕ → Option ℤ
  | 0, _ => none
  | fuel + 1, j => if p j then some (j : ℤ) else first_match_from p fuel (j + 1)

/-- Mirrors find_matching_index in models/quad.py: the first frame index
of the destination data whose pose key equals the pose key of the source
frame, or -1 when none exists (the empty-data guard of the source also
returns -1, which coincides with the empty loop). -/
def find_matching_index [DecidableEq K] (dsrc : QuadData K) (idxSrc : ℕ)
    (ddst : QuadData K) : ℤ :=
  match first_match_from (fun j => decide (pose_key ddst j = pose_key dsrc idxSrc))
      (ddst 0).length 0 with
  | some j => j
  | none => -1

/-- One exported movement table: per-leg displacement data, the per-frame
step duration in milliseconds and the entry index list. -/
structure Table (K : Type) where
  data : QuadData K
  dur : ℕ
  entries : List ℕ

/-- Mirrors normalize_pair_entries in generate_all_gaits: the canonical
index is the second entry of table a (first when a has fewer than two),
table b receives the first pose-identical frame index, falling back to b
own heuristic entry when no identical pose exists; both tables collapse
to a single entry. -/
def normalize_pair_entries [DecidableEq K] (a b : Table K) : Table K × Table K :=
  let aIdx : ℕ := if 2 ≤ a.entries.length then a.entries.getD 1 0 else a.entries.getD 0 0
  let bFound : ℤ := find_matching_index a.data aIdx b.data
  let bIdx : ℕ :=
    if bFound < 0 then (if 2 ≤ b.entries.length then b.entries.getD 1 0 else b.entries.getD 0 0)
    else bFound.toNat
  (⟨a.data, a.dur, [aIdx]⟩, ⟨b.data, b.dur, [bIdx]⟩)

/-- Mirrors normalize_single_entry in generate_all_gaits. -/
def normalize_single_entry (t : Table K) : Table K :=
  let es := if t.entries.isEmpty then [0] else t.entries
  ⟨t.data, t.dur, [if 2 ≤ es.length then es.getD 1 0 else es.getD 0 0]⟩

/-- The property stated by the entry-normalization step for one table
pair: the data and duration of both tables are preserved, each exported
entry list collapses to a single index, the first table keeps its second
heuristic entry as the canonical index and the second table receives the
first frame index with an identical rounded pose, falling back to its own
heuristic entry when no identical pose exists. -/
def pair_normalized_spec (a b anorm bnorm : Table K) : Prop :=
  anorm.data = a.data ∧ bnorm.data = b.data ∧
  anorm.dur = a.dur ∧ bnorm.dur = b.dur ∧
  ∃ ae be : ℕ,
    anorm.entries = [ae] ∧ bnorm.entries = [be] ∧
    ae = (if 2 ≤ a.entries.length then a.entries.getD 1 0 else a.entries.getD 0 0) ∧
    ((be < (b.data 0).length ∧ pose_key b.data be = pose_key a.data ae ∧
        ∀ k < be, pose_key b.data k ≠ pose_key a.data ae) ∨
      ((∀ k < (b.data 0).length, pose_key b.data k ≠ pose_key a.data ae) ∧
        be = (if 2 ≤ b.entries.length then b.entries.getD 1 0 else b.entries.getD 0 0)))

end PoseMatching

section Variants

variable {K : Type} [LinearOrderedField K]

/-- Mirrors make_variant_from in generate_all_gaits: apply a per-leg
point transform to every one of the n frames of the source data. -/
def make_variant_from (n : ℕ) (d : QuadData K) (tf : Fin 4 → Point K → Point K) :
    QuadData K :=
  fun leg => (List.range n).map (fun i => tf leg ((d leg).getD i (0, 0, 0)))

/-- Mirrors reverse_cycle in generate_all_gaits: time reversal keeping the
cycle, out[leg][i] = in[leg][(n - i) mod n] with n the length of leg 0. -/
def reverse_cycle (d : QuadData K) : QuadData K :=
  fun leg =>
    let n := (d 0).length
    (List.range n).map (fun i => (d leg).getD ((n - i) % n) (0, 0, 0))

/-- Mirrors remap_legs_by_old_to_new in generate_all_gaits: the whole
per-leg sequence of leg old is reassigned to leg oldToNew old; since every
permutation dict in the source is a bijection, the new leg receives the
sequence of its preimage. -/
def remap_legs_by_old_to_new (oldToNew : Equiv.Perm (Fin 4)) (d : QuadData K) :
    QuadData K :=
  fun newLeg => d (oldToNew.symm newLeg)

/-- The dict perm_front_back = (0 to 1, 1 to 0, 2 to 3, 3 to 2). -/
def perm_front_back : Equiv.Perm (Fin 4) :=
  ⟨![1, 0, 3, 2], ![1, 0, 3, 2], by decide, by decide⟩

/-- The dict perm_rotate_cw = (0 to 1, 1 to 2, 2 to 3, 3 to 0). -/
def perm_rotate_cw : Equiv.Perm (Fin 4) :=
  ⟨![1, 2, 3, 0], ![3, 0, 1, 2], by decide, by decide⟩

/-- The dict perm_rotate_ccw = (0 to 3, 3 to 2, 2 to 1, 1 to 0). -/
def perm_rotate_ccw : Equiv.Perm (Fin 4) :=
  ⟨![3, 0, 1, 2], ![1, 2, 3, 0], by decide, by decide⟩

/-- The backward transform in generate_all_gaits: mirror about the X axis,
negating the y component of every displacement. -/
def mirror_y (v : Point K) : Point K := (v.1, -v.2.1, v.2.2)

/-- The pose of frame idx: the per-leg displacement triples, unrounded. -/
def pose_of (d : QuadData K) (idx : ℕ) : List (Point K) :=
  (List.finRange 4).map (fun leg => (d leg).getD idx (0, 0, 0))

end Variants

section Synthesizer

variable {K : Type} [LinearOrderedField K]

/-- State of the QuadGait synthesizer in models/quad_gait.py: per-leg home
coordinates, the gait amplitude constants and the frame time. -/
structure QuadGait (K : Type) where
  homeX : Fin 4 → K
  homeY : Fin 4 → K
  homeZ : Fin 4 → K
  amplitudeX : K
  amplitudeY : K
  amplitudeZ : K
  frameTimeMs : ℕ

/-- Gait mode constant GAIT_TROT. -/
def GAIT_TROT : ℤ := 0
/-- Gait mode constant GAIT_WALK. -/
def GAIT_WALK : ℤ := 1
/-- Gait mode constant GAIT_GALLOP. -/
def GAIT_GALLOP : ℤ := 2
/-- Gait mode constant GAIT_CREEP. -/
def GAIT_CREEP : ℤ := 3
/-- Move status constant MOVE_STANDBY. -/
def MOVE_STANDBY : ℤ := 11
/-- Move status constant MOVE_FORWARD. -/
def MOVE_FORWARD : ℤ := 12

/-- Mirrors QuadGait formatted path assembly: zip the four per-leg paths
into frames ordered FR, FL, BL, BR, replace the whole cycle by a single
zero frame for MOVE_STANDBY (any other status keeps the full cycle, as
does the final else branch of the source), then add each leg home
position to obtain world coordinates. -/
def formated_path_status (g : QuadGait K)
    (fr fl bl br : List (Point K)) (moveStatus : ℤ) : List (Fin 4 → Point K) :=
  let pathQuad : List (Fin 4 → Point K) :=
    (List.range fr.length).map (fun i =>
      ![fr.getD i (0, 0, 0), fl.getD i (0, 0, 0), bl.getD i (0, 0, 0), br.getD i (0, 0, 0)])
  let corrected := if moveStatus = MOVE_STANDBY then [fun _ => ((0 : K), (0 : K), (0 : K))]
    else pathQuad
  corrected.map (fun ps => fun leg =>
    ((ps leg).1 + g.homeX leg, (ps leg).2.1 + g.homeY leg, (ps leg).2.2 + g.homeZ leg))

/-- The trot duration in ms: frame_time_ms * 20 at default speed. -/
def trot_duration (g : QuadGait K) (gaitSpeed : ℕ) : ℕ :=
  if gaitSpeed = 0 then g.frameTimeMs * 20 else g.frameTimeMs * 40

/-- Ticks per trot stage: int(duration / frame_time_ms / 2). -/
def trot_num_ticks (g : QuadGait K) (gaitSpeed : ℕ) : ℕ :=
  trot_duration g gaitSpeed / g.frameTimeMs / 2

/-- The walk and gallop duration in ms: 4 * 4 * frame_time_ms at default
speed, 1280 otherwise. -/
def walk_duration (g : QuadGait K) (gaitSpeed : ℕ) : ℕ :=
  if gaitSpeed = 0 then 4 * 4 * g.frameTimeMs else 1280

/-- Ticks per walk or gallop stage: int(duration / frame_time_ms / 4). -/
def walk_num_ticks (g : QuadGait K) (gaitSpeed : ℕ) : ℕ :=
  walk_duration g gaitSpeed / g.frameTimeMs / 4

/-- The creep duration in ms: 6 * 6 * frame_time_ms at default speed. -/
def creep_duration (g : QuadGait K) (gaitSpeed : ℕ) : ℕ :=
  if gaitSpeed = 0 then 6 * 6 * g.frameTimeMs else 12 * 6 * g.frameTimeMs

/-- Ticks per creep stage: int(duration / frame_time_ms / 6). -/
def creep_num_ticks (g : QuadGait K) (gaitSpeed : ℕ) : ℕ :=
  creep_duration g gaitSpeed / g.frameTimeMs / 6

end Synthesizer

section ShiftData

variable {K : Type} [LinearOrderedField K]

/-- Mirrors QuadModel shift-data extraction: per-leg displacement of every
world frame relative to the home position. -/
def generate_shift_data_from_world (g : QuadGait K) (framesWorld : List (Fin 4 → Point K)) :
    QuadData K :=
  fun leg => framesWorld.map (fun fr =>
    ((fr leg).1 - g.homeX leg, (fr leg).2.1 - g.homeY leg, (fr leg).2.2 - g.homeZ leg))

/-- The temporary amplitude mutation performed for the forwardfast
variant: amplitudeX scaled by 1.6 and amplitudeZ scaled by 0.6 on the
shared synthesizer instance. -/
def fast_mutated (g : QuadGait K) : QuadGait K :=
  { g with amplitudeX := g.amplitudeX * 1.6, amplitudeZ := g.amplitudeZ * 0.6 }

/-- The finally block of the forwardfast derivation: both amplitude
fields of the mutated synthesizer are set back to their original values. -/
def fast_restored (g : QuadGait K) : QuadGait K :=
  { fast_mutated g with amplitudeX := g.amplitudeX, amplitudeZ := g.amplitudeZ }

/-- The sequence of synthesizer states during the forwardfast derivation:
original, mutated for the parameter change, restored by the finally
block. -/
def gait_state_during_fast (g : QuadGait K) : List (QuadGait K) :=
  [g, fast_mutated g, fast_restored g]

end ShiftData

noncomputable section RealSynthesis

/-- Python error value raised by gen_path on an unsupported gait mode. -/
inductive PyError
  | valueError

/-- Waveform of the trot reference leg FR at interpolation index i, for
i = stage * numTicks + tick: stage 0 lifts with a sine arc in z and a
cosine sweep in x, stage 1 keeps the foot grounded sweeping back. -/
def trot_fr_point (g : QuadGait ℝ) (numTicks i : ℕ) : Point ℝ :=
  let t : ℕ := i % numTicks
  if i / numTicks = 0 then
    (-g.amplitudeX * Real.cos (Real.pi * t / numTicks), 0,
      |g.amplitudeZ| * Real.sin (Real.pi * t / numTicks))
  else
    (g.amplitudeX * Real.cos (Real.pi * t / numTicks), 0, 0)

/-- The trot FR base path: numTicks * 2 interpolated points. -/
def trot_fr_path (g : QuadGait ℝ) (gaitSpeed : ℕ) : List (Point ℝ) :=
  (List.range (trot_num_ticks g gaitSpeed * 2)).map
    (trot_fr_point g (trot_num_ticks g gaitSpeed))

/-- Mirrors trot_gait: FL is the FR path rotated right by one stage, BL
follows FR and BR follows FL. -/
def trot_gait (g : QuadGait ℝ) (moveStatus : ℤ) (gaitSpeed : ℕ) :
    List (Fin 4 → Point ℝ) :=
  let numTicks := trot_num_ticks g gaitSpeed
  let fr := trot_fr_path g gaitSpeed
  let fl := right_rotate_path fr numTicks
  let bl := fr
  let br := fl
  formated_path_status g fr fl bl br moveStatus

/-- Waveform of the walk reference leg FL at interpolation index i: stage
0 lifts (1.5 times the stride amplitude), stages 1 to 3 sweep the foot
back linearly on the ground; for i in those stages the accumulated tick
count (stage - 1) * numTicks + tick equals i - numTicks. -/
def walk_fl_point (g : QuadGait ℝ) (numTicks i : ℕ) : Point ℝ :=
  let t : ℕ := i % numTicks
  if i / numTicks = 0 then
    (-g.amplitudeX * Real.cos (Real.pi * t / numTicks) * 1.5, 0,
      |g.amplitudeZ| * Real.sin (Real.pi * t / numTicks))
  else
    ((g.amplitudeX - g.amplitudeX * 2 * ((i : ℝ) - numTicks) / (3 * numTicks)) * 1.5, 0, 0)

/-- The walk FL base path: numTicks * 4 interpolated points. -/
def walk_fl_path (g : QuadGait ℝ) (gaitSpeed : ℕ) : List (Point ℝ) :=
  (List.range (walk_num_ticks g gaitSpeed * 4)).map
    (walk_fl_point g (walk_num_ticks g gaitSpeed))

/-- Mirrors walk_gait: FR, BR, BL are the FL path rotated right by two,
one and three stages. -/
def walk_gait (g : QuadGait ℝ) (moveStatus : ℤ) (gaitSpeed : ℕ) :
    List (Fin 4 → Point ℝ) :=
  let numTicks := walk_num_ticks g gaitSpeed
  let fl := walk_fl_path g gaitSpeed
  let fr := right_rotate_path fl (numTicks * 2)
  let br := right_rotate_path fl (numTicks * 1)
  let bl := right_rotate_path fl (numTicks * 3)
  formated_path_status g fr fl bl br moveStatus

/-- The gallop FL base path; the source repeats the walk stage formulas
verbatim with the same duration and tick count. -/
def gallop_fl_path (g : QuadGait ℝ) (gaitSpeed : ℕ) : List (Point ℝ) :=
  (List.range (walk_num_ticks g gaitSpeed * 4)).map
    (walk_fl_point g (walk_num_ticks g gaitSpeed))

/-- Mirrors gallop_gait: FR, BR, BL are the FL path rotated right by one,
two and three stages. -/
def gallop_gait (g : QuadGait ℝ) (moveStatus : ℤ) (gaitSpeed : ℕ) :
    List (Fin 4 → Point ℝ) :=
  let numTicks := walk_num_ticks g gaitSpeed
  let fl := gallop_fl_path g gaitSpeed
  let fr := right_rotate_path fl (numTicks * 1)
  let br := right_rotate_path fl (numTicks * 2)
  let bl := right_rotate_path fl (numTicks * 3)
  formated_path_status g fr fl bl br moveStatus

/-- Waveform of the creep reference leg FR over its six stages: a sine
lift in stage 0 (1.5 times the lift amplitude, 2.0 times the stride), a
quarter-cosine return in stage 1, grounded rest in stages 2 and 3, a
quarter-sine retreat in stage 4 and a constant back position in stage 5. -/
def creep_fr_point (g : QuadGait ℝ) (numTicks i : ℕ) : Point ℝ :=
  let s := i / numTicks
  let t : ℕ := i % numTicks
  if s = 0 then
    (-g.amplitudeX * Real.cos (Real.pi * t / numTicks) * 2.0, 0,
      |g.amplitudeZ| * Real.sin (Real.pi * t / numTicks) * 1.5)
  else if s = 1 then (g.amplitudeX * Real.cos (Real.pi / 2 * t / numTicks) * 2.0, 0, 0)
  else if s = 2 then (0, 0, 0)
  else if s = 3 then (0, 0, 0)
  else if s = 4 then (-g.amplitudeX * Real.sin (Real.pi / 2 * t / numTicks) * 2.0, 0, 0)
  else (-g.amplitudeX * 2.0, 0, 0)

/-- Waveform of the creep BL leg over its six stages, phase shifted: it
lifts in stage 2 and moves on the ground elsewhere. -/
def creep_bl_point (g : QuadGait ℝ) (numTicks i : ℕ) : Point ℝ :=
  let s := i / numTicks
  let t : ℕ := i % numTicks
  if s = 0 then (0, 0, 0)
  else if s = 1 then (-g.amplitudeX * Real.sin (Real.pi / 2 * t / numTicks) * 2.0, 0, 0)
  else if s = 2 then
    (-g.amplitudeX * Real.cos (Real.pi * t / numTicks) * 2.0, 0,
      |g.amplitudeZ| * Real.sin (Real.pi * t / numTicks) * 1.5)
  else if s = 3 then (g.amplitudeX * 2.0, 0, 0)
  else if s = 4 then (g.amplitudeX * Real.cos (Real.pi / 2 * t / numTicks) * 2.0, 0, 0)
  else (0, 0, 0)

/-- The creep FR base path: numTicks * 6 interpolated points. -/
def creep_fr_path (g : QuadGait ℝ) (gaitSpeed : ℕ) : List (Point ℝ) :=
  (List.range (creep_num_ticks g gaitSpeed * 6)).map
    (creep_fr_point g (creep_num_ticks g gaitSpeed))

/-- The creep BL base path: numTicks * 6 interpolated points. -/
def creep_bl_path (g : QuadGait ℝ) (gaitSpeed : ℕ) : List (Point ℝ) :=
  (List.range (creep_num_ticks g gaitSpeed * 6)).map
    (creep_bl_point g (creep_num_ticks g gaitSpeed))

/-- Mirrors creep_gait: FL and BR are the FR and BL paths rotated left by
half the cycle. -/
def creep_gait (g : QuadGait ℝ) (moveStatus : ℤ) (gaitSpeed : ℕ) :
    List (Fin 4 → Point ℝ) :=
  let fr := creep_fr_path g gaitSpeed
  let bl := creep_bl_path g gaitSpeed
  let fl := left_rotate_path fr (fr.length / 2)
  let br := left_rotate_path bl (bl.length / 2)
  formated_path_status g fr fl bl br moveStatus

/-- Mirrors QuadGait gen_path: dispatch on the gait mode, raising
ValueError on any unsupported mode. -/
def gen_path (g : QuadGait ℝ) (gaitMode moveStatus : ℤ) (gaitSpeed : ℕ) :
    Except PyError (List (Fin 4 → Point ℝ)) :=
  if gaitMode = GAIT_TROT then .ok (trot_gait g moveStatus gaitSpeed)
  else if gaitMode = GAIT_WALK then .ok (walk_gait g moveStatus gaitSpeed)
  else if gaitMode = GAIT_GALLOP then .ok (gallop_gait g moveStatus gaitSpeed)
  else if gaitMode = GAIT_CREEP then .ok (creep_gait g moveStatus gaitSpeed)
  else .error .valueError

end RealSynthesis

noncomputable section QuadPipeline

/-- Firmware geometry fallback default kLegRootToJoint1. -/
def kLegRootToJoint1 : ℝ := 20.75
/-- Firmware geometry fallback default kLegJoint1ToJoint2. -/
def kLegJoint1ToJoint2 : ℝ := 28.0
/-- Firmware geometry fallback default kLegJoint2ToJoint3. -/
def kLegJoint2ToJoint3 : ℝ := 42.6
/-- Firmware geometry fallback default kLegJoint3ToTip. -/
def kLegJoint3ToTip : ℝ := 89.07
/-- Firmware geometry fallback default kQuadLegMountOtherX. -/
def kQuadLegMountOtherX : ℝ := 25.0
/-- Firmware geometry fallback default kQuadLegMountOtherY. -/
def kQuadLegMountOtherY : ℝ := 45.0
/-- Firmware geometry fallback default kQuadStanceCos. -/
def kQuadStanceCos : ℝ := 0.7071
/-- Firmware geometry fallback default kQuadStanceSin. -/
def kQuadStanceSin : ℝ := 0.7071
/-- Trig constant SIN30 from QuadModel. -/
def SIN30 : ℝ := 0.5
/-- Trig constant COS30 from QuadModel. -/
def COS30 : ℝ := 0.866
/-- Trig constant SIN10 from QuadModel. -/
def SIN10 : ℝ := 0.1736
/-- Trig constant COS10 from QuadModel. -/
def COS10 : ℝ := 0.9848

/-- standby_z_pos computed in QuadModel from the geometry constants.  The
firmware header the model tries to read first is not among the sources,
so the hard coded fallback defaults of _load_firmware_config are used. -/
def quad_standby_z_pos : ℝ := kLegJoint3ToTip * COS10 - kLegJoint2ToJoint3 * SIN30
/-- Horizontal reach computed in QuadModel. -/
def quad_reach : ℝ :=
  kLegRootToJoint1 + kLegJoint1ToJoint2 + kLegJoint2ToJoint3 * COS30 + kLegJoint3ToTip * SIN10
/-- Reach decomposed along X by the stance cosine. -/
def quad_reach_x : ℝ := quad_reach * kQuadStanceCos
/-- Reach decomposed along Y by the stance sine. -/
def quad_reach_y : ℝ := quad_reach * kQuadStanceSin
/-- Home X magnitude: mount offset plus reach X. -/
def quad_offset_x : ℝ := kQuadLegMountOtherX + quad_reach_x
/-- Home Y magnitude: mount offset plus reach Y. -/
def quad_offset_y : ℝ := kQuadLegMountOtherY + quad_reach_y
/-- Standby height: negated standby_z_pos. -/
def quad_standby_z : ℝ := -quad_standby_z_pos

/-- Per-leg home X coordinates, ordered FR, BR, BL, FL as in QuadModel. -/
def quad_home_x : Fin 4 → ℝ := ![quad_offset_x, quad_offset_x, -quad_offset_x, -quad_offset_x]
/-- Per-leg home Y coordinates. -/
def quad_home_y : Fin 4 → ℝ := ![quad_offset_y, -quad_offset_y, -quad_offset_y, quad_offset_y]
/-- Per-leg home Z coordinates, all at standby height. -/
def quad_home_z : Fin 4 → ℝ := fun _ => quad_standby_z

/-- The QuadGait instance built by QuadModel: default amplitudes 25, 15,
35 and a 20 ms frame time. -/
def the_gait : QuadGait ℝ := ⟨quad_home_x, quad_home_y, quad_home_z, 25, 15, 35, 20⟩

/-- Stage counts per gait mode as in the gait_stages dict of
generate_all_gaits, defaulting to 2 for unknown modes. -/
def gait_stages (gm : ℤ) : ℕ :=
  if gm = GAIT_TROT then 2
  else if gm = GAIT_WALK then 4
  else if gm = GAIT_GALLOP then 4
  else if gm = GAIT_CREEP then 6
  else 2

/-- Wave-propagating gaits needing the leg-phase remap: walk and creep. -/
def phase_sensitive (gm : ℤ) : Prop := gm = GAIT_WALK ∨ gm = GAIT_CREEP

instance (gm : ℤ) : Decidable (phase_sensitive gm) := by
  unfold phase_sensitive
  infer_instance

/-- The forward world frames generated by generate_all_gaits for one gait
mode (always a supported mode there, so the error branch is unreachable
and mapped to the empty list). -/
def frames_fwd (gm : ℤ) : List (Fin 4 → Point ℝ) :=
  match gen_path the_gait gm MOVE_FORWARD 0 with
  | .ok f => f
  | .error _ => []

/-- Length of the forward trajectory of a gait mode. -/
def fwd_len (gm : ℤ) : ℕ := (frames_fwd gm).length

/-- The forward displacement data of a gait mode. -/
def data_fwd (gm : ℤ) : QuadData ℝ := generate_shift_data_from_world the_gait (frames_fwd gm)

/-- The step duration written into every quadruped table: the frame time
of the gait instance. -/
def table_dur : ℕ := the_gait.frameTimeMs

/-- Forward entry list: start heuristic on the FR data plus the opposite
phase candidate. -/
def entries_fwd (gm : ℤ) : List ℕ :=
  compute_entries_core (data_fwd gm 0) (fwd_len gm) (gait_stages gm)

/-- Backward data: mirror of the forward displacements, additionally
remapped by the front-back permutation for walk, creep and gallop. -/
def data_bwd (gm : ℤ) : QuadData ℝ :=
  let m := make_variant_from (fwd_len gm) (data_fwd gm) (fun _ v => mirror_y v)
  if phase_sensitive gm ∨ gm = GAIT_GALLOP then remap_legs_by_old_to_new perm_front_back m
  else m

/-- Backward entry list: recomputed from the remapped data when a remap
happened, otherwise the forward entries. -/
def entries_bwd (gm : ℤ) : List ℕ :=
  if phase_sensitive gm ∨ gm = GAIT_GALLOP then
    compute_entries_core (data_bwd gm 0) (fwd_len gm) (gait_stages gm)
  else entries_fwd gm

/-- Rotation of a displacement about the vertical axis by deg degrees, as
rot_z in generate_all_gaits. -/
def rot_z (v : Point ℝ) (deg : ℝ) : Point ℝ :=
  let rad := Real.pi * deg / 180.0
  (v.1 * Real.cos rad - v.2.1 * Real.sin rad,
    v.1 * Real.sin rad + v.2.1 * Real.cos rad, v.2.2)

/-- Shift-left data: forward displacements rotated by +90 degrees, with
the counterclockwise propagation remap for phase-sensitive gaits. -/
def data_sl (gm : ℤ) : QuadData ℝ :=
  let v := make_variant_from (fwd_len gm) (data_fwd gm) (fun _ p => rot_z p 90.0)
  if phase_sensitive gm then remap_legs_by_old_to_new perm_rotate_ccw v else v

/-- Shift-left entry list. -/
def entries_sl (gm : ℤ) : List ℕ :=
  if phase_sensitive gm then
    compute_entries_core (data_sl gm 0) (fwd_len gm) (gait_stages gm)
  else entries_fwd gm

/-- Shift-right data before the gallop special case: forward rotated by
-90 degrees with the clockwise remap for phase-sensitive gaits. -/
def data_sr_geo (gm : ℤ) : QuadData ℝ :=
  let v := make_variant_from (fwd_len gm) (data_fwd gm) (fun _ p => rot_z p (-90.0))
  if phase_sensitive gm then remap_legs_by_old_to_new perm_rotate_cw v else v

/-- Shift-right entries before the gallop special case. -/
def entries_sr_geo (gm : ℤ) : List ℕ :=
  if phase_sensitive gm then
    compute_entries_core (data_sr_geo gm 0) (fwd_len gm) (gait_stages gm)
  else entries_fwd gm

/-- Exported shift-right data: for gallop the time reversal of the
derived shift-left data, otherwise the geometric variant. -/
def data_sr (gm : ℤ) : QuadData ℝ :=
  if gm = GAIT_GALLOP then reverse_cycle (data_sl gm) else data_sr_geo gm

/-- Exported shift-right entries: for gallop those of shift-left. -/
def entries_sr (gm : ℤ) : List ℕ :=
  if gm = GAIT_GALLOP then entries_sl gm else entries_sr_geo gm

/-- Python math.atan2 modelled as the complex argument of x + y i, both
returning the angle of the point (x, y) in the interval (-pi, pi]. -/
def atan2 (y x : ℝ) : ℝ := Complex.arg ⟨x, y⟩

/-- Python float modulo for a positive modulus: x - y * floor(x / y). -/
def fmod (x y : ℝ) : ℝ := x - y * ⌊x / y⌋

/-- Mount direction of a leg in degrees in [0, 360), as radial_deg in
generate_all_gaits. -/
def radial_deg (leg : Fin 4) : ℝ :=
  fmod (atan2 (quad_home_y leg) (quad_home_x leg) * 180.0 / Real.pi + 360.0) 360.0

/-- Per-leg tangential target angle for turning left. -/
def left_angles (leg : Fin 4) : ℝ := fmod (radial_deg leg + 90.0) 360.0

/-- Per-leg tangential target angle for turning right. -/
def right_angles (leg : Fin 4) : ℝ := fmod (radial_deg leg - 90.0) 360.0

/-- Turn-left data: per-leg rotation from the forward heading of 90
degrees to the left tangential angle. -/
def data_tl (gm : ℤ) : QuadData ℝ :=
  make_variant_from (fwd_len gm) (data_fwd gm) (fun leg v => rot_z v (left_angles leg - 90.0))

/-- Turn-left entries: the forward entries. -/
def entries_tl (gm : ℤ) : List ℕ := entries_fwd gm

/-- Turn-right data before the gallop special case: per-leg rotation of
the backward data from the backward heading of 270 degrees to the right
tangential angle. -/
def data_tr_geo (gm : ℤ) : QuadData ℝ :=
  make_variant_from (fwd_len gm) (data_bwd gm) (fun leg v => rot_z v (right_angles leg - 270.0))

/-- Turn-right entries before the gallop special case. -/
def entries_tr_geo (gm : ℤ) : List ℕ :=
  if phase_sensitive gm then
    compute_entries_core (data_tr_geo gm 0) (fwd_len gm) (gait_stages gm)
  else entries_fwd gm

/-- Exported turn-right data: for gallop the time reversal of the derived
turn-left data, otherwise the geometric variant. -/
def data_tr (gm : ℤ) : QuadData ℝ :=
  if gm = GAIT_GALLOP then reverse_cycle (data_tl gm) else data_tr_geo gm

/-- Exported turn-right entries: for gallop those of turn-left. -/
def entries_tr (gm : ℤ) : List ℕ :=
  if gm = GAIT_GALLOP then entries_tl gm else entries_tr_geo gm

/-- Forwardfast world frames: generated while the synthesizer amplitudes
are mutated. -/
def frames_fast (gm : ℤ) : List (Fin 4 → Point ℝ) :=
  match gen_path (fast_mutated the_gait) gm MOVE_FORWARD 0 with
  | .ok f => f
  | .error _ => []

/-- Forwardfast displacement data. -/
def data_fast (gm : ℤ) : QuadData ℝ :=
  generate_shift_data_from_world the_gait (frames_fast gm)

/-- Forwardfast entry list. -/
def entries_fast (gm : ℤ) : List ℕ :=
  compute_entries_fast (data_fast gm 0) (frames_fast gm).length

/-- The forward table of a gait mode before entry normalization. -/
def fwd_table (gm : ℤ) : Table ℝ := ⟨data_fwd gm, table_dur, entries_fwd gm⟩
/-- The backward table before entry normalization. -/
def bwd_table (gm : ℤ) : Table ℝ := ⟨data_bwd gm, table_dur, entries_bwd gm⟩
/-- The shift-left table before entry normalization. -/
def sl_table (gm : ℤ) : Table ℝ := ⟨data_sl gm, table_dur, entries_sl gm⟩
/-- The shift-right table before entry normalization. -/
def sr_table (gm : ℤ) : Table ℝ := ⟨data_sr gm, table_dur, entries_sr gm⟩
/-- The turn-left table before entry normalization. -/
def tl_table (gm : ℤ) : Table ℝ := ⟨data_tl gm, table_dur, entries_tl gm⟩
/-- The turn-right table before entry normalization. -/
def tr_table (gm : ℤ) : Table ℝ := ⟨data_tr gm, table_dur, entries_tr gm⟩
/-- The forwardfast table before entry normalization. -/
def fast_table (gm : ℤ) : Table ℝ := ⟨data_fast gm, table_dur, entries_fast gm⟩

/-- The exported forward and backward tables after normalization. -/
def exported_fb (gm : ℤ) : Table ℝ × Table ℝ :=
  normalize_pair_entries (fwd_table gm) (bwd_table gm)
/-- The exported turn-left and turn-right tables after normalization. -/
def exported_tlr (gm : ℤ) : Table ℝ × Table ℝ :=
  normalize_pair_entries (tl_table gm) (tr_table gm)
/-- The exported shift-left and shift-right tables after normalization. -/
def exported_slr (gm : ℤ) : Table ℝ × Table ℝ :=
  normalize_pair_entries (sl_table gm) (sr_table gm)
/-- The exported forwardfast table after normalization. -/
def exported_fast (gm : ℤ) : Table ℝ := normalize_single_entry (fast_table gm)

/-- Per-stage tick count of each gait mode at default speed, taken from
the corresponding synthesizer tick computation. -/
def tick_count : Fin 4 → ℕ :=
  ![trot_num_ticks the_gait 0, walk_num_ticks the_gait 0,
    walk_num_ticks the_gait 0, creep_num_ticks the_gait 0]

end QuadPipeline

section Hexapod

variable {K : Type} [LinearOrderedField K]

/-- Per-leg hexapod shift path data: data[6][N][3]. -/
abbrev HexData (K : Type) := Fin 6 → List (Point K)

/-- Mirrors HexapodModel verify-points: run the inverse kinematics on the
foot point and collect every joint index whose angle lies strictly below
its configured minimum or strictly above its configured maximum; the ok
flag is true exactly when no joint failed.  Modelled from the spec: the
kinematics module and the config angle limit table are not among the
sources, so the pure ik function and the limits are parameters as the
spec interface section describes. -/
def verify_points (ik : Point K → List K) (angleLimitation : List (K × K))
    (pt : Point K) : Bool × List (ℕ × K) :=
  let angles := ik pt
  let failed := (List.range angles.length).filterMap (fun i =>
    let angle := angles.getD i 0
    if angle < (angleLimitation.getD i (0, 0)).1 ∨ (angleLimitation.getD i (0, 0)).2 < angle
    then some (i, angle) else none)
  (failed.isEmpty, failed)

/-- Mirrors the shift branch of HexapodModel verify-path: every frame of
every leg is checked and the overall flag stays true only when all foot
points verify.  Modelled from the spec: config.defaultPosition,
config.mountPosition, config.defaultAngle and path.lib point rotation are
not among the sources; the whole per-leg foot point construction (default
minus mount plus displacement, rotated to the leg local frame) is
abstracted into the footPoint parameter applied to the displacement. -/
def verify_path_shift (ik : Point K → List K) (angleLimitation : List (K × K))
    (footPoint : Fin 6 → Point K → Point K) (data : HexData K) : Bool :=
  (List.range (data 0).length).all (fun i =>
    (List.finRange 6).all (fun j =>
      (verify_points ik angleLimitation (footPoint j ((data j).getD i (0, 0, 0)))).1))

/-- The failing paths collected by run_hexapod in path_tool_cli.py: the
comprehension keeps one marker per path whose verification returned
false, evaluating verify_path on every collected path. -/
def run_hexapod_failures {A : Type} (verify : A → Bool) (results : List A) : List A :=
  results.filter (fun p => !(verify p))

/-- The exit code of run_hexapod: 1 via sys.exit when the failure list is
nonempty, otherwise the run completes and main returns 0. -/
def run_hexapod_exit_code {A : Type} (verify : A → Bool) (results : List A) : ℕ :=
  if 0 < (run_hexapod_failures verify results).length then 1 else 0

end Hexapod

section WitnessInputs

/-- Concrete rational quadruped data used to instantiate theorems with
hypotheses on an executable input. -/
def wdataA : QuadData ℚ := fun _ => [(1, 2, 3), (4, 5, 6), (7, 8, 9)]

/-- Concrete reference-leg displacement list for the start-index
selector: maximal lift 3 at indices 1 and 2, index 1 nearer the centre. -/
def wdataB : List (Point ℚ) := [(0, 0, 0), (5, 1, 3), (2, 3, 3), (1, -2, 1)]

/-- Toy inverse kinematics for the hexapod witness: one joint angle equal
to the x coordinate of the foot point. -/
def wik : Point ℚ → List ℚ := fun p => [p.1]

/-- Toy joint limit table for the hexapod witness. -/
def wlim : List (ℚ × ℚ) := [(0, 10)]

/-- Identity foot transform for the hexapod witness. -/
def wfoot : Fin 6 → Point ℚ → Point ℚ := fun _ p => p

/-- One-frame hexapod path whose only foot point exceeds the limit. -/
def whex : HexData ℚ := fun _ => [(20, 0, 0)]

end WitnessInputs

section FoldLemmas

variable {K : Type} [LinearOrderedField K]

/-- Auxiliary lemma: a fold of max is an upper bound of its seed. -/
theorem le_foldl_max (l : List K) (a : K) : a ≤ l.foldl max a := by
  induction l generalizing a with
  | nil => exact le_refl a
  | cons x xs ih => exact le_trans (le_max_left a x) (ih (max a x))

/-- Auxiliary lemma: a fold of max bounds every element of the list. -/
theorem mem_le_foldl_max (l : List K) (a : K) : ∀ x ∈ l, x ≤ l.foldl max a := by
  induction l generalizing a with
  | nil => intro x hx; cases hx
  | cons y ys ih =>
    intro x hx
    rcases List.mem_cons.mp hx with h | h
    · subst h
      exact le_trans (le_max_right a x) (le_foldl_max ys (max a x))
    · exact ih (max a y) x h

/-- Auxiliary lemma: a fold of max is the seed or an element of the list. -/
theorem foldl_max_mem (l : List K) (a : K) : l.foldl max a = a ∨ l.foldl max a ∈ l := by
  induction l generalizing a with
  | nil => exact Or.inl rfl
  | cons y ys ih =>
    rcases ih (max a y) with h | h
    · rcases le_total y a with hm | hm
      · left
        rw [List.foldl_cons, h, max_eq_left hm]
      · right
        rw [List.foldl_cons, h, max_eq_right hm]
        exact List.mem_cons_self y ys
    · exact Or.inr (List.mem_cons_of_mem y h)

/-- Auxiliary lemma describing the first-strict-minimum fold used to model
the Python min with a key function: the result is the seed or a member,
and its key is minimal among the seed and all members. -/
theorem foldl_min_spec (key : ℕ → K) (l : List ℕ) (b : ℕ) :
    (l.foldl (fun b i => if key i < key b then i else b) b = b ∨
      l.foldl (fun b i => if key i < key b then i else b) b ∈ l) ∧
    key (l.foldl (fun b i => if key i < key b then i else b) b) ≤ key b ∧
    ∀ x ∈ l, key (l.foldl (fun b i => if key i < key b then i else b) b) ≤ key x := by
  induction l generalizing b with
  | nil => exact ⟨Or.inl rfl, le_refl _, by intro x hx; cases hx⟩
  | cons y ys ih =>
    by_cases hc : key y < key b
    · obtain ⟨hmem, hle, hall⟩ := ih y
      rw [List.foldl_cons, if_pos hc]
      refine ⟨?_, ?_, ?_⟩
      · rcases hmem with h | h
        · exact Or.inr (by simp [h])
        · exact Or.inr (List.mem_cons_of_mem y h)
      · exact le_trans hle (le_of_lt hc)
      · intro x hx
        rcases List.mem_cons.mp hx with h | h
        · subst h
          exact hle
        · exact hall x h
    · obtain ⟨hmem, hle, hall⟩ := ih b
      rw [List.foldl_cons, if_neg hc]
      refine ⟨?_, ?_, ?_⟩
      · rcases hmem with h | h
        · exact Or.inl h
        · exact Or.inr (List.mem_cons_of_mem y h)
      · exact hle
      · intro x hx
        rcases List.mem_cons.mp hx with h | h
        · subst h
          exact le_trans hle (le_of_not_lt hc)
        · exact hall x h

/-- The max fold seeded with the head is a member of a nonempty list. -/
theorem foldl_max_self_mem (l : List K) (hl : l ≠ []) (a : K) :
    l.foldl max (l.headD a) ∈ l := by
  rcases l with _ | ⟨x, xs⟩
  · exact absurd rfl hl
  · rcases foldl_max_mem (x :: xs) ((x :: xs).headD a) with h | h
    · rw [h]
      exact List.mem_cons_self x xs
    · exact h

/-- The first-minimum fold seeded with the head is a member of a
nonempty list. -/
theorem foldl_min_self_mem (key : ℕ → K) (l : List ℕ) (hl : l ≠ []) :
    l.foldl (fun b i => if key i < key b then i else b) (l.headD 0) ∈ l := by
  rcases l with _ | ⟨x, xs⟩
  · exact absurd rfl hl
  · rcases (foldl_min_spec key (x :: xs) ((x :: xs).headD 0)).1 with h | h
    · rw [h]
      exact List.mem_cons_self x xs
    · exact h

/-- Characterization of first_match_from: a successful search yields an
index in range satisfying the predicate with no earlier match. -/
theorem first_match_from_some {p : ℕ → Bool} {fuel start : ℕ} {j : ℤ}
    (h : first_match_from p fuel start = some j) :
    ∃ jn : ℕ, j = (jn : ℤ) ∧ start ≤ jn ∧ jn < start + fuel ∧ p jn = true ∧
      ∀ k, start ≤ k → k < jn → p k = false := by
  induction fuel generalizing start with
  | zero => simp [first_match_from] at h
  | succ fuel ih =>
    rw [first_match_from] at h
    by_cases hp : p start
    · rw [if_pos hp] at h
      refine ⟨start, by simpa using h.symm, le_refl _, by omega, hp, ?_⟩
      intro k hk1 hk2
      omega
    · rw [if_neg hp] at h
      obtain ⟨jn, hj, h1, h2, h3, h4⟩ := ih h
      refine ⟨jn, hj, by omega, by omega, h3, ?_⟩
      intro k hk1 hk2
      rcases Nat.eq_or_lt_of_le hk1 with he | hlt
      · simpa [← he] using hp
      · exact h4 k hlt hk2

/-- Characterization of first_match_from: a failed search means no index
in range satisfies the predicate. -/
theorem first_match_from_none {p : ℕ → Bool} {fuel start : ℕ}
    (h : first_match_from p fuel start = none) :
    ∀ k, start ≤ k → k < start + fuel → p k = false := by
  induction fuel generalizing start with
  | zero => intro k h1 h2; omega
  | succ fuel ih =>
    rw [first_match_from] at h
    by_cases hp : p start
    · rw [if_pos hp] at h
      cases h
    · rw [if_neg hp] at h
      intro k hk1 hk2
      rcases Nat.eq_or_lt_of_le hk1 with he | hlt
      · simpa [← he] using hp
      · exact ih h k hlt (by omega)

end FoldLemmas

section ListLemmas

variable {K : Type} [LinearOrderedField K]

/-- getD of a mapped range at an in-range index. -/
theorem getD_range_map {α : Type} (f : ℕ → α) {n i : ℕ} (hi : i < n) (d : α) :
    ((List.range n).map f).getD i d = f i := by
  rw [List.getD_eq_getElem?_getD, List.getElem?_map, List.getElem?_range hi]
  rfl

/-- getD of a mapped list at an in-range index. -/
theorem getD_map_lt {α β : Type} (f : α → β) {l : List α} {i : ℕ} (hi : i < l.length)
    (a : α) (b : β) : (l.map f).getD i b = f (l.getD i a) := by
  rw [List.getD_eq_getElem?_getD, List.getElem?_map, List.getElem?_eq_getElem hi,
    List.getD_eq_getElem?_getD, List.getElem?_eq_getElem hi]
  rfl

/-- Cyclic right rotation preserves the length. -/
theorem length_right_rotate {α : Type} (l : List α) (k : ℕ) :
    (right_rotate_path l k).length = l.length := by
  simp [right_rotate_path]

/-- Cyclic left rotation preserves the length. -/
theorem length_left_rotate {α : Type} (l : List α) (k : ℕ) :
    (left_rotate_path l k).length = l.length := by
  simp [left_rotate_path]
  omega

/-- For a non-standby move status, the formatted path has one world frame
per interpolated point of the first leg path. -/
theorem length_formated (g : QuadGait K) (fr fl bl br : List (Point K)) {ms : ℤ}
    (h : ¬ ms = MOVE_STANDBY) :
    (formated_path_status g fr fl bl br ms).length = fr.length := by
  simp [formated_path_status, if_neg h]

/-- Adding the home position in the formatted path and subtracting it in
the shift-data extraction cancel: the displacement data of a non-standby
formatted path is the zipped per-leg source data itself. -/
theorem shift_data_formated (g : QuadGait K) (fr fl bl br : List (Point K)) {ms : ℤ}
    (h : ¬ ms = MOVE_STANDBY) (leg : Fin 4) :
    generate_shift_data_from_world g (formated_path_status g fr fl bl br ms) leg
      = (List.range fr.length).map (fun i =>
          ![fr.getD i (0, 0, 0), fl.getD i (0, 0, 0),
            bl.getD i (0, 0, 0), br.getD i (0, 0, 0)] leg) := by
  simp only [generate_shift_data_from_world, formated_path_status, if_neg h, List.map_map]
  refine List.map_congr_left ?_
  intro i hi
  simp [Function.comp, add_sub_cancel_right]

/-- Every per-leg list of make_variant_from has length n. -/
theorem length_make_variant (n : ℕ) (d : QuadData K) (tf : Fin 4 → Point K → Point K)
    (leg : Fin 4) : (make_variant_from n d tf leg).length = n := by
  simp [make_variant_from]

/-- Every per-leg list of reverse_cycle has the length of leg 0. -/
theorem length_reverse_cycle (d : QuadData K) (leg : Fin 4) :
    (reverse_cycle d leg).length = (d 0).length := by
  simp [reverse_cycle]

/-- getD of an in-range index is a member of the list. -/
theorem getD_mem {α : Type} {l : List α} {i : ℕ} (hi : i < l.length) (a : α) :
    l.getD i a ∈ l := by
  rw [List.getD_eq_getElem _ _ hi]
  exact List.getElem_mem hi

end ListLemmas

section PipelineLemmas

/-- gen_path dispatches trot for GAIT_TROT. -/
theorem frames_fwd_trot : frames_fwd GAIT_TROT = trot_gait the_gait MOVE_FORWARD 0 := by
  simp [frames_fwd, gen_path]

/-- gen_path dispatches walk for GAIT_WALK. -/
theorem frames_fwd_walk : frames_fwd GAIT_WALK = walk_gait the_gait MOVE_FORWARD 0 := by
  simp [frames_fwd, gen_path, GAIT_WALK, GAIT_TROT]

/-- gen_path dispatches gallop for GAIT_GALLOP. -/
theorem frames_fwd_gallop : frames_fwd GAIT_GALLOP = gallop_gait the_gait MOVE_FORWARD 0 := by
  simp [frames_fwd, gen_path, GAIT_GALLOP, GAIT_WALK, GAIT_TROT]

/-- gen_path dispatches creep for GAIT_CREEP. -/
theorem frames_fwd_creep : frames_fwd GAIT_CREEP = creep_gait the_gait MOVE_FORWARD 0 := by
  simp [frames_fwd, gen_path, GAIT_CREEP, GAIT_GALLOP, GAIT_WALK, GAIT_TROT]

/-- Ticks per trot stage at default speed with a 20 ms frame time. -/
theorem trot_ticks_val : trot_num_ticks the_gait 0 = 10 := by
  simp [trot_num_ticks, trot_duration, the_gait]

/-- Ticks per walk and gallop stage at default speed. -/
theorem walk_ticks_val : walk_num_ticks the_gait 0 = 4 := by
  simp [walk_num_ticks, walk_duration, the_gait]

/-- Ticks per creep stage at default speed. -/
theorem creep_ticks_val : creep_num_ticks the_gait 0 = 6 := by
  simp [creep_num_ticks, creep_duration, the_gait]

/-- The trot forward trajectory holds 20 frames. -/
theorem fwd_len_trot : fwd_len GAIT_TROT = 20 := by
  rw [fwd_len, frames_fwd_trot]
  simp [trot_gait, formated_path_status, MOVE_FORWARD, MOVE_STANDBY, trot_fr_path,
    trot_num_ticks, trot_duration, the_gait]

/-- The walk forward trajectory holds 16 frames. -/
theorem fwd_len_walk : fwd_len GAIT_WALK = 16 := by
  rw [fwd_len, frames_fwd_walk]
  simp [walk_gait, formated_path_status, MOVE_FORWARD, MOVE_STANDBY, right_rotate_path,
    walk_fl_path, walk_num_ticks, walk_duration, the_gait]

/-- The gallop forward trajectory holds 16 frames. -/
theorem fwd_len_gallop : fwd_len GAIT_GALLOP = 16 := by
  rw [fwd_len, frames_fwd_gallop]
  simp [gallop_gait, formated_path_status, MOVE_FORWARD, MOVE_STANDBY, right_rotate_path,
    gallop_fl_path, walk_num_ticks, walk_duration, the_gait]

/-- The creep forward trajectory holds 36 frames. -/
theorem fwd_len_creep : fwd_len GAIT_CREEP = 36 := by
  rw [fwd_len, frames_fwd_creep]
  simp [creep_gait, formated_path_status, MOVE_FORWARD, MOVE_STANDBY, creep_fr_path,
    creep_num_ticks, creep_duration, the_gait]

/-- Every per-leg forward data list has the trajectory length. -/
theorem length_data_fwd (gm : ℤ) (leg : Fin 4) :
    (data_fwd gm leg).length = fwd_len gm := by
  simp [data_fwd, generate_shift_data_from_world, fwd_len]

/-- The trot forward FR displacement data is the trot reference waveform. -/
theorem data_fwd_trot_fr :
    data_fwd GAIT_TROT 0 = (List.range 20).map (fun i => trot_fr_point the_gait 10 i) := by
  rw [data_fwd, frames_fwd_trot]
  simp only [trot_gait]
  rw [shift_data_formated the_gait _ _ _ _ (by decide) 0]
  have hlen : (trot_fr_path the_gait 0).length = 20 := by
    simp [trot_fr_path, trot_num_ticks, trot_duration, the_gait]
  rw [hlen]
  refine List.map_congr_left ?_
  intro i hi
  rw [List.mem_range] at hi
  simp only [Matrix.cons_val_zero]
  simp only [trot_fr_path, trot_ticks_val]
  rw [getD_range_map _ (by omega)]

/-- The walk forward FL displacement data is the walk reference waveform. -/
theorem data_fwd_walk_fl :
    data_fwd GAIT_WALK 1 = (List.range 16).map (fun i => walk_fl_point the_gait 4 i) := by
  rw [data_fwd, frames_fwd_walk]
  simp only [walk_gait]
  rw [shift_data_formated the_gait _ _ _ _ (by decide) 1]
  have hlen : (right_rotate_path (walk_fl_path the_gait 0)
      (walk_num_ticks the_gait 0 * 2)).length = 16 := by
    simp [length_right_rotate, walk_fl_path, walk_num_ticks, walk_duration, the_gait]
  rw [hlen]
  refine List.map_congr_left ?_
  intro i hi
  rw [List.mem_range] at hi
  simp only [Matrix.cons_val_one, Matrix.head_cons]
  simp only [walk_fl_path, walk_ticks_val]
  rw [getD_range_map _ (by omega)]

/-- The gallop forward FL displacement data is the gallop base waveform. -/
theorem data_fwd_gallop_fl :
    data_fwd GAIT_GALLOP 1 = (List.range 16).map (fun i => walk_fl_point the_gait 4 i) := by
  rw [data_fwd, frames_fwd_gallop]
  simp only [gallop_gait]
  rw [shift_data_formated the_gait _ _ _ _ (by decide) 1]
  have hlen : (right_rotate_path (gallop_fl_path the_gait 0)
      (walk_num_ticks the_gait 0 * 1)).length = 16 := by
    simp [length_right_rotate, gallop_fl_path, walk_num_ticks, walk_duration, the_gait]
  rw [hlen]
  refine List.map_congr_left ?_
  intro i hi
  rw [List.mem_range] at hi
  simp only [Matrix.cons_val_one, Matrix.head_cons]
  simp only [gallop_fl_path, walk_ticks_val]
  rw [getD_range_map _ (by omega)]

/-- The creep forward FR displacement data is the creep FR waveform. -/
theorem data_fwd_creep_fr :
    data_fwd GAIT_CREEP 0 = (List.range 36).map (fun i => creep_fr_point the_gait 6 i) := by
  rw [data_fwd, frames_fwd_creep]
  simp only [creep_gait]
  rw [shift_data_formated the_gait _ _ _ _ (by decide) 0]
  have hlen : (creep_fr_path the_gait 0).length = 36 := by
    simp [creep_fr_path, creep_num_ticks, creep_duration, the_gait]
  rw [hlen]
  refine List.map_congr_left ?_
  intro i hi
  rw [List.mem_range] at hi
  simp only [Matrix.cons_val_zero]
  simp only [creep_fr_path, creep_ticks_val]
  rw [getD_range_map _ (by omega)]

end PipelineLemmas

section ClaimC10

/-- C10: reverse_cycle keeps the first frame fixed: for nonempty input,
out[leg][0] equals in[leg][0], and out[leg][i] equals in[leg][N - i] for
1 <= i < N, so a time-reversed table starts at the same pose as its
source rather than at the last frame as a plain list reversal would. -/
theorem claim_C10 {K : Type} [LinearOrderedField K] (d : QuadData K)
    (hn : 0 < (d 0).length) :
    (∀ leg : Fin 4, (reverse_cycle d leg).getD 0 (0, 0, 0) = (d leg).getD 0 (0, 0, 0)) ∧
    (∀ leg : Fin 4, ∀ i : ℕ, 1 ≤ i → i < (d 0).length →
      (reverse_cycle d leg).getD i (0, 0, 0)
        = (d leg).getD ((d 0).length - i) (0, 0, 0)) := by
  constructor
  · intro leg
    simp only [reverse_cycle]
    rw [getD_range_map _ hn]
    rw [Nat.sub_zero, Nat.mod_self]
  · intro leg i h1 h2
    simp only [reverse_cycle]
    rw [getD_range_map _ h2]
    rw [Nat.mod_eq_of_lt (by omega)]

/-- Witness for C10: the reversal identities evaluated on a concrete
three-frame rational data set. -/
theorem claim_C10_witness :
    (∀ leg : Fin 4, (reverse_cycle wdataA leg).getD 0 (0, 0, 0) = (wdataA leg).getD 0 (0, 0, 0)) ∧
    (∀ leg : Fin 4, ∀ i : ℕ, 1 ≤ i → i < (wdataA 0).length →
      (reverse_cycle wdataA leg).getD i (0, 0, 0)
        = (wdataA leg).getD ((wdataA 0).length - i) (0, 0, 0)) :=
  claim_C10 wdataA (by decide)

end ClaimC10

section ClaimC4

/-- C4 counterexample: at default speed the trot forward trajectory has
20 frames, refuting the stated 10-frame scenario; the synthesizer fixes
the trot duration at frame_time_ms * 20 = 400 ms, not 200 ms. -/
theorem claim_C4_counterexample : ¬ fwd_len GAIT_TROT = 10 := by
  rw [fwd_len_trot]
  decide

/-- C4 amended: at default speed the trot duration is 400 ms, giving
numTicks = 400 / 20 / 2 = 10 ticks per stage and a forward trajectory of
exactly 20 frames with entries start and (start + 10) mod 20; and for
every gait mode the forward trajectory length equals the per-stage tick
count times the declared stage count. -/
theorem claim_C4 :
    trot_duration the_gait 0 = 400 ∧
    trot_num_ticks the_gait 0 = 10 ∧
    fwd_len GAIT_TROT = 20 ∧
    entries_fwd GAIT_TROT =
      [start_index (data_fwd GAIT_TROT 0) 20 2,
        (start_index (data_fwd GAIT_TROT 0) 20 2 + 10) % 20] ∧
    ∀ gm : Fin 4, fwd_len ((gm : ℕ) : ℤ) = tick_count gm * gait_stages ((gm : ℕ) : ℤ) := by
  refine ⟨by simp [trot_duration, the_gait], trot_ticks_val, fwd_len_trot, ?_, ?_⟩
  · rw [entries_fwd, fwd_len_trot]
    have hst : gait_stages GAIT_TROT = 2 := by simp [gait_stages]
    rw [hst]
    simp [compute_entries_core]
  · intro gm
    fin_cases gm
    · show fwd_len GAIT_TROT = tick_count 0 * gait_stages GAIT_TROT
      rw [fwd_len_trot]
      simp [tick_count, trot_ticks_val, gait_stages]
    · show fwd_len GAIT_WALK = tick_count 1 * gait_stages GAIT_WALK
      rw [fwd_len_walk]
      simp [tick_count, walk_ticks_val, gait_stages, GAIT_WALK, GAIT_TROT]
    · show fwd_len GAIT_GALLOP = tick_count 2 * gait_stages GAIT_GALLOP
      rw [fwd_len_gallop]
      simp [tick_count, walk_ticks_val, gait_stages, GAIT_GALLOP, GAIT_WALK, GAIT_TROT]
    · show fwd_len GAIT_CREEP = tick_count 3 * gait_stages GAIT_CREEP
      rw [fwd_len_creep]
      simp [tick_count, creep_ticks_val, gait_stages, GAIT_CREEP, GAIT_GALLOP, GAIT_WALK,
        GAIT_TROT]

end ClaimC4

section ClaimC9

/-- C9 counterexample: the forwardfast variant is derived by mutating the
shared synthesizer state; the synthesizer used for the fast synthesis is
not the original one, its amplitudeX having been scaled to 25 * 1.6. -/
theorem claim_C9_counterexample : ¬ fast_mutated the_gait = the_gait := by
  intro h
  have h2 := congrArg QuadGait.amplitudeX h
  simp only [fast_mutated, the_gait] at h2
  norm_num at h2

/-- C9 amended: the forwardfast variant is produced by temporarily
mutating the shared synthesizer amplitudes (amplitudeX scaled by 1.6,
amplitudeZ by 0.6) and restoring them in a finally block; after the
derivation the synthesizer state equals the original, so all subsequently
derived trajectories are unaffected. -/
theorem claim_C9 {K : Type} [LinearOrderedField K] (g : QuadGait K) :
    (fast_mutated g).amplitudeX = g.amplitudeX * 1.6 ∧
    (fast_mutated g).amplitudeZ = g.amplitudeZ * 0.6 ∧
    fast_restored g = g ∧
    (gait_state_during_fast g).getLast? = some g ∧
    ∀ gmode msts : ℤ, ∀ sp : ℕ,
      gen_path (fast_restored the_gait) gmode msts sp = gen_path the_gait gmode msts sp := by
  have h3 : fast_restored g = g := rfl
  refine ⟨rfl, rfl, h3, ?_, fun gmode msts sp => rfl⟩
  simp [gait_state_during_fast, h3]

end ClaimC9

section ReverseLemmas

variable {K : Type} [LinearOrderedField K]

/-- Elementwise description of reverse_cycle at an in-range index. -/
theorem getD_reverse_cycle (d : QuadData K) {i : ℕ} (hi : i < (d 0).length) (leg : Fin 4) :
    (reverse_cycle d leg).getD i (0, 0, 0)
      = (d leg).getD (((d 0).length - i) % (d 0).length) (0, 0, 0) := by
  simp only [reverse_cycle]
  rw [getD_range_map _ hi]

/-- The pose of frame i of a reversed cycle is the pose of the mirrored
index of the source. -/
theorem pose_of_reverse_cycle (d : QuadData K) {i : ℕ} (hi : i < (d 0).length) :
    pose_of (reverse_cycle d) i = pose_of d (((d 0).length - i) % (d 0).length) := by
  unfold pose_of
  refine List.map_congr_left ?_
  intro leg _
  exact getD_reverse_cycle d hi leg

end ReverseLemmas

section ClaimC5

/-- The gallop shift-left data has 16 frames on every leg. -/
theorem length_data_sl_gallop (leg : Fin 4) : (data_sl GAIT_GALLOP leg).length = 16 := by
  rw [data_sl]
  rw [if_neg (by decide : ¬ phase_sensitive GAIT_GALLOP)]
  rw [length_make_variant, fwd_len_gallop]

/-- The gallop turn-left data has 16 frames on every leg. -/
theorem length_data_tl_gallop (leg : Fin 4) : (data_tl GAIT_GALLOP leg).length = 16 := by
  rw [data_tl, length_make_variant, fwd_len_gallop]

/-- C5: the exported gallop shiftright table is the time reversal of the
derived shiftleft table and the exported gallop turnright table is the
time reversal of the derived turnleft table, with the entries of the
left-hand member assigned at derivation; pointwise out[leg][i] equals
in[leg][(N - i) mod N], the set of per-frame poses of each right-hand
table equals that of its left-hand pair, and each pair shares the pose at
frame 0. -/
theorem claim_C5 :
    (data_sr GAIT_GALLOP = reverse_cycle (data_sl GAIT_GALLOP) ∧
      data_tr GAIT_GALLOP = reverse_cycle (data_tl GAIT_GALLOP)) ∧
    (entries_sr GAIT_GALLOP = entries_sl GAIT_GALLOP ∧
      entries_tr GAIT_GALLOP = entries_tl GAIT_GALLOP) ∧
    (∀ leg : Fin 4, ∀ i < 16,
      (data_sr GAIT_GALLOP leg).getD i (0, 0, 0)
          = (data_sl GAIT_GALLOP leg).getD ((16 - i) % 16) (0, 0, 0) ∧
      (data_tr GAIT_GALLOP leg).getD i (0, 0, 0)
          = (data_tl GAIT_GALLOP leg).getD ((16 - i) % 16) (0, 0, 0)) ∧
    ((∀ i < 16, ∃ k < 16, pose_of (data_sr GAIT_GALLOP) i = pose_of (data_sl GAIT_GALLOP) k) ∧
      (∀ k < 16, ∃ i < 16, pose_of (data_sl GAIT_GALLOP) k = pose_of (data_sr GAIT_GALLOP) i) ∧
      (∀ i < 16, ∃ k < 16, pose_of (data_tr GAIT_GALLOP) i = pose_of (data_tl GAIT_GALLOP) k) ∧
      (∀ k < 16, ∃ i < 16, pose_of (data_tl GAIT_GALLOP) k = pose_of (data_tr GAIT_GALLOP) i) ∧
      pose_of (data_sr GAIT_GALLOP) 0 = pose_of (data_sl GAIT_GALLOP) 0 ∧
      pose_of (data_tr GAIT_GALLOP) 0 = pose_of (data_tl GAIT_GALLOP) 0) := by
  have hsr : data_sr GAIT_GALLOP = reverse_cycle (data_sl GAIT_GALLOP) := by
    rw [data_sr, if_pos rfl]
  have htr : data_tr GAIT_GALLOP = reverse_cycle (data_tl GAIT_GALLOP) := by
    rw [data_tr, if_pos rfl]
  have hsl0 : (data_sl GAIT_GALLOP 0).length = 16 := length_data_sl_gallop 0
  have htl0 : (data_tl GAIT_GALLOP 0).length = 16 := length_data_tl_gallop 0
  have hpt_s : ∀ i < 16, pose_of (data_sr GAIT_GALLOP) i
      = pose_of (data_sl GAIT_GALLOP) ((16 - i) % 16) := by
    intro i hi
    rw [hsr, pose_of_reverse_cycle _ (by omega : i < (data_sl GAIT_GALLOP 0).length), hsl0]
  have hpt_t : ∀ i < 16, pose_of (data_tr GAIT_GALLOP) i
      = pose_of (data_tl GAIT_GALLOP) ((16 - i) % 16) := by
    intro i hi
    rw [htr, pose_of_reverse_cycle _ (by omega : i < (data_tl GAIT_GALLOP 0).length), htl0]
  refine ⟨⟨hsr, htr⟩, ⟨by rw [entries_sr, if_pos rfl], by rw [entries_tr, if_pos rfl]⟩,
    ?_, ?_, ?_, ?_, ?_, ?_, ?_⟩
  · intro leg i hi
    constructor
    · rw [hsr, getD_reverse_cycle _ (by omega : i < (data_sl GAIT_GALLOP 0).length), hsl0]
    · rw [htr, getD_reverse_cycle _ (by omega : i < (data_tl GAIT_GALLOP 0).length), htl0]
  · intro i hi
    exact ⟨(16 - i) % 16, by omega, hpt_s i hi⟩
  · intro k hk
    refine ⟨(16 - k) % 16, by omega, ?_⟩
    rw [hpt_s ((16 - k) % 16) (by omega)]
    congr 1
    omega
  · intro i hi
    exact ⟨(16 - i) % 16, by omega, hpt_t i hi⟩
  · intro k hk
    refine ⟨(16 - k) % 16, by omega, ?_⟩
    rw [hpt_t ((16 - k) % 16) (by omega)]
    congr 1
    omega
  · have := hpt_s 0 (by omega)
    simpa using this
  · have := hpt_t 0 (by omega)
    simpa using this

/-- Witness for C5: the pointwise reversal identity at frame 3 of the
gallop shift pair. -/
theorem claim_C5_witness :
    (data_sr GAIT_GALLOP 0).getD 3 (0, 0, 0)
      = (data_sl GAIT_GALLOP 0).getD ((16 - 3) % 16) (0, 0, 0) :=
  ((claim_C5.2.2.1 0 3 (by decide)).1)

end ClaimC5

section ClaimC6

/-- Every per-leg backward data list has the forward trajectory length. -/
theorem length_data_bwd (gm : ℤ) (leg : Fin 4) :
    (data_bwd gm leg).length = fwd_len gm := by
  simp only [data_bwd]
  split
  · rw [remap_legs_by_old_to_new, length_make_variant]
  · rw [length_make_variant]

/-- C6: for every gait mode the backward trajectory has the same frame
count and per-frame duration as the forward one; for trot it is the
pointwise y mirror of the forward data with x and z unchanged; for the
phase-sensitive gaits the same mirrored per-leg sequences are reassigned
by the front-back leg permutation. -/
theorem claim_C6 :
    (∀ gm : Fin 4, ∀ leg : Fin 4,
      (data_bwd ((gm : ℕ) : ℤ) leg).length = fwd_len ((gm : ℕ) : ℤ) ∧
      (data_fwd ((gm : ℕ) : ℤ) leg).length = fwd_len ((gm : ℕ) : ℤ) ∧
      (bwd_table ((gm : ℕ) : ℤ)).dur = (fwd_table ((gm : ℕ) : ℤ)).dur) ∧
    (∀ leg : Fin 4, ∀ i < fwd_len GAIT_TROT,
      (data_bwd GAIT_TROT leg).getD i (0, 0, 0)
        = (((data_fwd GAIT_TROT leg).getD i (0, 0, 0)).1,
            -((data_fwd GAIT_TROT leg).getD i (0, 0, 0)).2.1,
            ((data_fwd GAIT_TROT leg).getD i (0, 0, 0)).2.2)) ∧
    (∀ gm : Fin 4, phase_sensitive ((gm : ℕ) : ℤ) →
      ∀ oldLeg : Fin 4, ∀ i < fwd_len ((gm : ℕ) : ℤ),
      (data_bwd ((gm : ℕ) : ℤ) (perm_front_back oldLeg)).getD i (0, 0, 0)
        = (((data_fwd ((gm : ℕ) : ℤ) oldLeg).getD i (0, 0, 0)).1,
            -((data_fwd ((gm : ℕ) : ℤ) oldLeg).getD i (0, 0, 0)).2.1,
            ((data_fwd ((gm : ℕ) : ℤ) oldLeg).getD i (0, 0, 0)).2.2)) := by
  refine ⟨?_, ?_, ?_⟩
  · intro gm leg
    exact ⟨length_data_bwd _ _, length_data_fwd _ _, rfl⟩
  · intro leg i hi
    simp only [data_bwd]
    rw [if_neg (by decide : ¬ (phase_sensitive GAIT_TROT ∨ GAIT_TROT = GAIT_GALLOP))]
    simp only [make_variant_from]
    rw [getD_range_map _ hi]
    rfl
  · intro gm hps oldLeg i hi
    simp only [data_bwd]
    rw [if_pos (Or.inl hps)]
    simp only [remap_legs_by_old_to_new, Equiv.symm_apply_apply]
    simp only [make_variant_from]
    rw [getD_range_map _ hi]
    rfl

/-- Witness for C6: the trot backward frame 0 of leg 0 is the y mirror of
the forward frame. -/
theorem claim_C6_witness :
    (data_bwd GAIT_TROT 0).getD 0 (0, 0, 0)
      = (((data_fwd GAIT_TROT 0).getD 0 (0, 0, 0)).1,
          -((data_fwd GAIT_TROT 0).getD 0 (0, 0, 0)).2.1,
          ((data_fwd GAIT_TROT 0).getD 0 (0, 0, 0)).2.2) :=
  claim_C6.2.1 0 0 (by rw [fwd_len_trot]; norm_num)

end ClaimC6

section ClaimC7

/-- A sine of pi times a proper fraction is nonnegative. -/
theorem sin_frac_nonneg (m N : ℕ) (h : m < N) : 0 ≤ Real.sin (Real.pi * m / N) := by
  have hN : (0 : ℝ) < N := by
    have : 0 < N := by omega
    exact_mod_cast this
  apply Real.sin_nonneg_of_nonneg_of_le_pi
  · positivity
  · rw [div_le_iff₀ hN]
    have hm : (m : ℝ) ≤ N := by exact_mod_cast le_of_lt h
    nlinarith [Real.pi_pos]

/-- C7: for every gait mode the reference leg vertical displacement is
nonnegative at every tick of the lift stage and exactly zero at every
tick of the stance stages (reference FR for trot and creep, FL for walk
and gallop). -/
theorem claim_C7 :
    (∀ i < 20,
      (i < 10 → 0 ≤ ((data_fwd GAIT_TROT 0).getD i (0, 0, 0)).2.2) ∧
      (10 ≤ i → ((data_fwd GAIT_TROT 0).getD i (0, 0, 0)).2.2 = 0)) ∧
    (∀ i < 16,
      (i < 4 → 0 ≤ ((data_fwd GAIT_WALK 1).getD i (0, 0, 0)).2.2) ∧
      (4 ≤ i → ((data_fwd GAIT_WALK 1).getD i (0, 0, 0)).2.2 = 0)) ∧
    (∀ i < 16,
      (i < 4 → 0 ≤ ((data_fwd GAIT_GALLOP 1).getD i (0, 0, 0)).2.2) ∧
      (4 ≤ i → ((data_fwd GAIT_GALLOP 1).getD i (0, 0, 0)).2.2 = 0)) ∧
    (∀ i < 36,
      (i < 6 → 0 ≤ ((data_fwd GAIT_CREEP 0).getD i (0, 0, 0)).2.2) ∧
      (6 ≤ i → ((data_fwd GAIT_CREEP 0).getD i (0, 0, 0)).2.2 = 0)) := by
  refine ⟨?_, ?_, ?_, ?_⟩
  · intro i hi
    constructor
    · intro h10
      rw [data_fwd_trot_fr, getD_range_map _ hi]
      simp only [trot_fr_point]
      rw [if_pos (Nat.div_eq_of_lt h10)]
      exact mul_nonneg (abs_nonneg _) (sin_frac_nonneg _ _ (Nat.mod_lt _ (by norm_num)))
    · intro h10
      rw [data_fwd_trot_fr, getD_range_map _ hi]
      simp only [trot_fr_point]
      rw [if_neg (by omega : ¬ i / 10 = 0)]
  · intro i hi
    constructor
    · intro h4
      rw [data_fwd_walk_fl, getD_range_map _ hi]
      simp only [walk_fl_point]
      rw [if_pos (Nat.div_eq_of_lt h4)]
      exact mul_nonneg (abs_nonneg _) (sin_frac_nonneg _ _ (Nat.mod_lt _ (by norm_num)))
    · intro h4
      rw [data_fwd_walk_fl, getD_range_map _ hi]
      simp only [walk_fl_point]
      rw [if_neg (by omega : ¬ i / 4 = 0)]
  · intro i hi
    constructor
    · intro h4
      rw [data_fwd_gallop_fl, getD_range_map _ hi]
      simp only [walk_fl_point]
      rw [if_pos (Nat.div_eq_of_lt h4)]
      exact mul_nonneg (abs_nonneg _) (sin_frac_nonneg _ _ (Nat.mod_lt _ (by norm_num)))
    · intro h4
      rw [data_fwd_gallop_fl, getD_range_map _ hi]
      simp only [walk_fl_point]
      rw [if_neg (by omega : ¬ i / 4 = 0)]
  · intro i hi
    constructor
    · intro h6
      rw [data_fwd_creep_fr, getD_range_map _ hi]
      simp only [creep_fr_point]
      rw [if_pos (Nat.div_eq_of_lt h6)]
      exact mul_nonneg
        (mul_nonneg (abs_nonneg _) (sin_frac_nonneg _ _ (Nat.mod_lt _ (by norm_num))))
        (by norm_num)
    · intro h6
      rw [data_fwd_creep_fr, getD_range_map _ hi]
      have h5 : i / 6 = 1 ∨ i / 6 = 2 ∨ i / 6 = 3 ∨ i / 6 = 4 ∨ i / 6 = 5 := by omega
      simp only [creep_fr_point]
      rcases h5 with h | h | h | h | h <;> simp [h]

/-- Witness for C7: the trot reference leg starts its lift stage at a
nonnegative height. -/
theorem claim_C7_witness : 0 ≤ ((data_fwd GAIT_TROT 0).getD 0 (0, 0, 0)).2.2 :=
  (claim_C7.1 0 (by norm_num)).1 (by norm_num)

end ClaimC7

section ClaimC8

/-- For a standby move status the formatted path is one frame at the home
pose, whatever the synthesized per-leg paths were. -/
theorem formated_standby (g : QuadGait ℝ) (fr fl bl br : List (Point ℝ)) :
    formated_path_status g fr fl bl br MOVE_STANDBY
      = [fun leg => (g.homeX leg, g.homeY leg, g.homeZ leg)] := by
  simp [formated_path_status]

/-- C8: gen_path with a standby move status returns exactly one frame at
the home pose, whose displacement relative to home is zero on every leg;
with a forward status it returns the full synthesized cycle (20, 16, 16
and 36 frames for trot, walk, gallop, creep); and every gait mode outside
the four supported ones raises ValueError. -/
theorem claim_C8 (g : QuadGait ℝ) (sp : ℕ) :
    (∀ gmode : ℤ,
      gmode = GAIT_TROT ∨ gmode = GAIT_WALK ∨ gmode = GAIT_GALLOP ∨ gmode = GAIT_CREEP →
      gen_path g gmode MOVE_STANDBY sp
        = Except.ok [fun leg => (g.homeX leg, g.homeY leg, g.homeZ leg)]) ∧
    (generate_shift_data_from_world g
        [fun leg => (g.homeX leg, g.homeY leg, g.homeZ leg)]
      = fun _ => [((0 : ℝ), 0, 0)]) ∧
    (∀ gmode : ℤ,
      gmode = GAIT_TROT ∨ gmode = GAIT_WALK ∨ gmode = GAIT_GALLOP ∨ gmode = GAIT_CREEP →
      gen_path the_gait gmode MOVE_FORWARD 0 = Except.ok (frames_fwd gmode)) ∧
    (fwd_len GAIT_TROT = 20 ∧ fwd_len GAIT_WALK = 16 ∧ fwd_len GAIT_GALLOP = 16 ∧
      fwd_len GAIT_CREEP = 36) ∧
    (∀ gmode : ℤ, ¬ gmode = GAIT_TROT → ¬ gmode = GAIT_WALK → ¬ gmode = GAIT_GALLOP →
      ¬ gmode = GAIT_CREEP → ∀ ms : ℤ, gen_path g gmode ms sp = Except.error PyError.valueError) := by
  refine ⟨?_, ?_, ?_, ⟨fwd_len_trot, fwd_len_walk, fwd_len_gallop, fwd_len_creep⟩, ?_⟩
  · intro gmode h
    rcases h with h | h | h | h <;> subst h
    · have h1 : gen_path g GAIT_TROT MOVE_STANDBY sp
          = Except.ok (trot_gait g MOVE_STANDBY sp) := by
        simp [gen_path]
      rw [h1]
      simp only [trot_gait]
      rw [formated_standby]
    · have h1 : gen_path g GAIT_WALK MOVE_STANDBY sp
          = Except.ok (walk_gait g MOVE_STANDBY sp) := by
        simp [gen_path, GAIT_WALK, GAIT_TROT]
      rw [h1]
      simp only [walk_gait]
      rw [formated_standby]
    · have h1 : gen_path g GAIT_GALLOP MOVE_STANDBY sp
          = Except.ok (gallop_gait g MOVE_STANDBY sp) := by
        simp [gen_path, GAIT_GALLOP, GAIT_WALK, GAIT_TROT]
      rw [h1]
      simp only [gallop_gait]
      rw [formated_standby]
    · have h1 : gen_path g GAIT_CREEP MOVE_STANDBY sp
          = Except.ok (creep_gait g MOVE_STANDBY sp) := by
        simp [gen_path, GAIT_CREEP, GAIT_GALLOP, GAIT_WALK, GAIT_TROT]
      rw [h1]
      simp only [creep_gait]
      rw [formated_standby]
  · funext leg
    simp [generate_shift_data_from_world]
  · intro gmode h
    rcases h with h | h | h | h <;> subst h
    · rw [frames_fwd_trot]
      simp [gen_path]
    · rw [frames_fwd_walk]
      simp [gen_path, GAIT_WALK, GAIT_TROT]
    · rw [frames_fwd_gallop]
      simp [gen_path, GAIT_GALLOP, GAIT_WALK, GAIT_TROT]
    · rw [frames_fwd_creep]
      simp [gen_path, GAIT_CREEP, GAIT_GALLOP, GAIT_WALK, GAIT_TROT]
  · intro gmode h0 h1 h2 h3 ms
    simp only [gen_path]
    rw [if_neg h0, if_neg h1, if_neg h2, if_neg h3]

/-- Witness for C8: the trot standby call yields the single home frame
and gait mode 7 raises ValueError. -/
theorem claim_C8_witness :
    gen_path the_gait GAIT_TROT MOVE_STANDBY 0
      = Except.ok [fun leg => (the_gait.homeX leg, the_gait.homeY leg, the_gait.homeZ leg)] ∧
    gen_path the_gait 7 0 0 = Except.error PyError.valueError :=
  ⟨(claim_C8 the_gait 0).1 GAIT_TROT (Or.inl rfl),
    (claim_C8 the_gait 0).2.2.2.2 7 (by decide) (by decide) (by decide) (by decide) 0⟩

end ClaimC8

section ClaimC1

variable {K : Type} [LinearOrderedField K]

/-- The ok flag of verify-points is false exactly when some joint angle
lies strictly outside its configured limits. -/
theorem verify_points_false_iff (ik : Point K → List K)
    (angleLimitation : List (K × K)) (pt : Point K) :
    (verify_points ik angleLimitation pt).1 = false ↔
      ∃ t < (ik pt).length,
        ((ik pt).getD t 0 < (angleLimitation.getD t (0, 0)).1 ∨
          (angleLimitation.getD t (0, 0)).2 < (ik pt).getD t 0) := by
  simp only [verify_points]
  rw [List.isEmpty_eq_false, ne_eq, List.filterMap_eq_nil_iff]
  push_neg
  constructor
  · rintro ⟨t, ht, hne⟩
    rw [List.mem_range] at ht
    refine ⟨t, ht, ?_⟩
    by_contra hc
    rw [if_neg hc] at hne
    exact hne rfl
  · rintro ⟨t, ht, hcond⟩
    refine ⟨t, List.mem_range.mpr ht, ?_⟩
    rw [if_pos hcond]
    simp

/-- The shift-mode path verification returns false exactly when some
frame and leg has a failing foot point. -/
theorem verify_path_shift_false_iff (ik : Point K → List K)
    (angleLimitation : List (K × K)) (footPoint : Fin 6 → Point K → Point K)
    (data : HexData K) :
    verify_path_shift ik angleLimitation footPoint data = false ↔
      ∃ i < (data 0).length, ∃ j : Fin 6,
        (verify_points ik angleLimitation
          (footPoint j ((data j).getD i (0, 0, 0)))).1 = false := by
  unfold verify_path_shift
  rw [Bool.eq_false_iff, ne_eq, List.all_eq_true]
  push_neg
  constructor
  · rintro ⟨i, hi, hall⟩
    rw [List.mem_range] at hi
    rw [ne_eq, List.all_eq_true] at hall
    push_neg at hall
    obtain ⟨j, _, hfalse⟩ := hall
    exact ⟨i, hi, j, Bool.eq_false_iff.mpr hfalse⟩
  · rintro ⟨i, hi, j, hfalse⟩
    refine ⟨i, List.mem_range.mpr hi, ?_⟩
    rw [ne_eq, List.all_eq_true]
    push_neg
    exact ⟨j, List.mem_finRange j, Bool.eq_false_iff.mp hfalse⟩

/-- C1: the hexapod compiler run exits with code 1 exactly when some
collected path fails verification, every failing path appears in the
collected failure list (verification is applied to every path before the
abort), and a shift-mode path verifies false exactly when some frame and
leg foot point yields, through the ik function, a joint angle strictly
below its configured minimum or strictly above its configured maximum. -/
theorem claim_C1 (ik : Point K → List K) (angleLimitation : List (K × K))
    (footPoint : Fin 6 → Point K → Point K) (results : List (HexData K)) :
    (run_hexapod_exit_code (verify_path_shift ik angleLimitation footPoint) results = 1 ↔
      ∃ d ∈ results, verify_path_shift ik angleLimitation footPoint d = false) ∧
    (∀ d ∈ results, verify_path_shift ik angleLimitation footPoint d = false →
      d ∈ run_hexapod_failures (verify_path_shift ik angleLimitation footPoint) results) ∧
    (∀ d : HexData K, verify_path_shift ik angleLimitation footPoint d = false ↔
      ∃ i < (d 0).length, ∃ j : Fin 6,
        ∃ t < (ik (footPoint j ((d j).getD i (0, 0, 0)))).length,
        ((ik (footPoint j ((d j).getD i (0, 0, 0)))).getD t 0
            < (angleLimitation.getD t (0, 0)).1 ∨
          (angleLimitation.getD t (0, 0)).2
            < (ik (footPoint j ((d j).getD i (0, 0, 0)))).getD t 0)) := by
  refine ⟨?_, ?_, ?_⟩
  · unfold run_hexapod_exit_code run_hexapod_failures
    constructor
    · intro h
      by_cases hp : 0 < (results.filter
          (fun p => !(verify_path_shift ik angleLimitation footPoint p))).length
      · obtain ⟨d, hd⟩ := List.length_pos_iff_exists_mem.mp hp
        rw [List.mem_filter] at hd
        exact ⟨d, hd.1, by simpa using hd.2⟩
      · rw [if_neg hp] at h
        exact absurd h (by decide)
    · rintro ⟨d, hd, hv⟩
      rw [if_pos (List.length_pos_iff_exists_mem.mpr
        ⟨d, List.mem_filter.mpr ⟨hd, by simp [hv]⟩⟩)]
  · intro d hd hv
    unfold run_hexapod_failures
    exact List.mem_filter.mpr ⟨hd, by simp [hv]⟩
  · intro d
    rw [verify_path_shift_false_iff]
    refine exists_congr fun i => ?_
    refine and_congr_right fun _ => ?_
    refine exists_congr fun j => ?_
    exact verify_points_false_iff ik angleLimitation _

/-- Witness for C1: on a concrete one-path rational input with a foot
point beyond the joint limit, the failure equivalences are inhabited. -/
theorem claim_C1_witness :
    (run_hexapod_exit_code (verify_path_shift wik wlim wfoot) [whex] = 1 ↔
      ∃ d ∈ [whex], verify_path_shift wik wlim wfoot d = false) ∧
    (verify_path_shift wik wlim wfoot whex = false ↔
      ∃ i < (whex 0).length, ∃ j : Fin 6,
        ∃ t < (wik (wfoot j ((whex j).getD i (0, 0, 0)))).length,
        ((wik (wfoot j ((whex j).getD i (0, 0, 0)))).getD t 0
            < (wlim.getD t (0, 0)).1 ∨
          (wlim.getD t (0, 0)).2
            < (wik (wfoot j ((whex j).getD i (0, 0, 0)))).getD t 0)) :=
  ⟨(claim_C1 wik wlim wfoot [whex]).1, (claim_C1 wik wlim wfoot [whex]).2.2 whex⟩

end ClaimC1

section ClaimC2

variable {K : Type} [LinearOrderedField K] [FloorRing K] [DecidableEq K]

/-- The result of find_matching_index is either negative with no frame of
the destination sharing the rounded pose of the source frame, or the
first in-range destination frame index sharing that rounded pose. -/
theorem find_matching_index_spec (dsrc : QuadData K) (idxSrc : ℕ) (ddst : QuadData K) :
    (find_matching_index dsrc idxSrc ddst < 0 ∧
      ∀ k < (ddst 0).length, pose_key ddst k ≠ pose_key dsrc idxSrc) ∨
    (∃ jn : ℕ, find_matching_index dsrc idxSrc ddst = (jn : ℤ) ∧ jn < (ddst 0).length ∧
      pose_key ddst jn = pose_key dsrc idxSrc ∧
      ∀ k < jn, pose_key ddst k ≠ pose_key dsrc idxSrc) := by
  unfold find_matching_index
  cases hm : first_match_from
      (fun j => decide (pose_key ddst j = pose_key dsrc idxSrc)) (ddst 0).length 0 with
  | some j =>
    obtain ⟨jn, hj, _, hlt, hp, hearly⟩ := first_match_from_some hm
    right
    refine ⟨jn, hj, by omega, of_decide_eq_true hp, ?_⟩
    intro k hk
    exact of_decide_eq_false (hearly k (Nat.zero_le k) hk)
  | none =>
    left
    refine ⟨by decide, ?_⟩
    intro k hk
    exact of_decide_eq_false (first_match_from_none hm k (Nat.zero_le k) (by omega))

/-- normalize_pair_entries establishes the pair normalization property
for any two input tables. -/
theorem normalize_pair_spec_holds (a b : Table K) :
    pair_normalized_spec a b (normalize_pair_entries a b).1 (normalize_pair_entries a b).2 := by
  unfold pair_normalized_spec
  refine ⟨rfl, rfl, rfl, rfl, ?_⟩
  refine ⟨_, _, rfl, rfl, rfl, ?_⟩
  rcases find_matching_index_spec a.data
      (if 2 ≤ a.entries.length then a.entries.getD 1 0 else a.entries.getD 0 0) b.data with
    ⟨hF, hnone⟩ | ⟨jn, hval, hlt, hpose, hearly⟩
  · right
    refine ⟨hnone, ?_⟩
    simp only [if_pos hF]
  · left
    rw [hval]
    rw [if_neg (not_lt.mpr (Int.natCast_nonneg jn))]
    simp only [Int.toNat_natCast]
    exact ⟨hlt, hpose, hearly⟩

/-- The exported first table of a normalized pair keeps the second entry
of its heuristic entry list when that list has two entries. -/
theorem normalize_pair_fst_entries (a b : Table K) (h : 2 ≤ a.entries.length) :
    (normalize_pair_entries a b).1.entries = [a.entries.getD 1 0] := by
  unfold normalize_pair_entries
  simp [h]

end ClaimC2

section EntriesLemmas

variable {K : Type} [LinearOrderedField K]

/-- The heuristic entry list of a trajectory with at least two frames has
exactly two entries. -/
theorem length_compute_entries_core (d : List (Point K)) (n stages : ℕ) (hn : 2 ≤ n) :
    (compute_entries_core d n stages).length = 2 := by
  simp [compute_entries_core, hn]

end EntriesLemmas

section ClaimC2Pipeline

/-- The forward trajectory of every gait mode has at least two frames. -/
theorem fwd_len_ge_two (gm : Fin 4) : 2 ≤ fwd_len ((gm : ℕ) : ℤ) := by
  fin_cases gm
  · show 2 ≤ fwd_len GAIT_TROT
    rw [fwd_len_trot]
    norm_num
  · show 2 ≤ fwd_len GAIT_WALK
    rw [fwd_len_walk]
    norm_num
  · show 2 ≤ fwd_len GAIT_GALLOP
    rw [fwd_len_gallop]
    norm_num
  · show 2 ≤ fwd_len GAIT_CREEP
    rw [fwd_len_creep]
    norm_num

/-- The forward entry list of every gait mode has two entries. -/
theorem entries_fwd_len_two (gm : Fin 4) : (entries_fwd ((gm : ℕ) : ℤ)).length = 2 := by
  rw [entries_fwd]
  exact length_compute_entries_core _ _ _ (fwd_len_ge_two gm)

/-- The shift-left entry list of every gait mode has two entries. -/
theorem entries_sl_len_two (gm : Fin 4) : (entries_sl ((gm : ℕ) : ℤ)).length = 2 := by
  rw [entries_sl]
  split
  · exact length_compute_entries_core _ _ _ (fwd_len_ge_two gm)
  · exact entries_fwd_len_two gm

/-- C2: after entry normalization each member of the forward-backward,
turnleft-turnright and shiftleft-shiftright pairs exports exactly one
entry; the first member keeps its second heuristic entry as canonical and
the paired table receives the first frame index whose rounded per-leg
pose equals the canonical frame pose, falling back to its own heuristic
entry when no identical pose exists. -/
theorem claim_C2 (gm : Fin 4) :
    (pair_normalized_spec (fwd_table ((gm : ℕ) : ℤ)) (bwd_table ((gm : ℕ) : ℤ))
        (exported_fb ((gm : ℕ) : ℤ)).1 (exported_fb ((gm : ℕ) : ℤ)).2 ∧
      pair_normalized_spec (tl_table ((gm : ℕ) : ℤ)) (tr_table ((gm : ℕ) : ℤ))
        (exported_tlr ((gm : ℕ) : ℤ)).1 (exported_tlr ((gm : ℕ) : ℤ)).2 ∧
      pair_normalized_spec (sl_table ((gm : ℕ) : ℤ)) (sr_table ((gm : ℕ) : ℤ))
        (exported_slr ((gm : ℕ) : ℤ)).1 (exported_slr ((gm : ℕ) : ℤ)).2) ∧
    ((exported_fb ((gm : ℕ) : ℤ)).1.entries = [(entries_fwd ((gm : ℕ) : ℤ)).getD 1 0] ∧
      (exported_tlr ((gm : ℕ) : ℤ)).1.entries = [(entries_fwd ((gm : ℕ) : ℤ)).getD 1 0] ∧
      (exported_slr ((gm : ℕ) : ℤ)).1.entries = [(entries_sl ((gm : ℕ) : ℤ)).getD 1 0]) ∧
    ((exported_fb ((gm : ℕ) : ℤ)).1.entries.length = 1 ∧
      (exported_fb ((gm : ℕ) : ℤ)).2.entries.length = 1 ∧
      (exported_tlr ((gm : ℕ) : ℤ)).1.entries.length = 1 ∧
      (exported_tlr ((gm : ℕ) : ℤ)).2.entries.length = 1 ∧
      (exported_slr ((gm : ℕ) : ℤ)).1.entries.length = 1 ∧
      (exported_slr ((gm : ℕ) : ℤ)).2.entries.length = 1) := by
  refine ⟨⟨normalize_pair_spec_holds _ _, normalize_pair_spec_holds _ _,
    normalize_pair_spec_holds _ _⟩, ⟨?_, ?_, ?_⟩, rfl, rfl, rfl, rfl, rfl, rfl⟩
  · exact normalize_pair_fst_entries _ _ (by rw [show (fwd_table ((gm : ℕ) : ℤ)).entries
      = entries_fwd ((gm : ℕ) : ℤ) from rfl, entries_fwd_len_two gm])
  · exact normalize_pair_fst_entries _ _ (by rw [show (tl_table ((gm : ℕ) : ℤ)).entries
      = entries_fwd ((gm : ℕ) : ℤ) from rfl, entries_fwd_len_two gm])
  · exact normalize_pair_fst_entries _ _ (by rw [show (sl_table ((gm : ℕ) : ℤ)).entries
      = entries_sl ((gm : ℕ) : ℤ) from rfl, entries_sl_len_two gm])

/-- Witness for C2: the exported trot forward table keeps the second
heuristic forward entry as its single canonical entry. -/
theorem claim_C2_witness :
    (exported_fb ((((0 : Fin 4) : ℕ)) : ℤ)).1.entries
      = [(entries_fwd ((((0 : Fin 4) : ℕ)) : ℤ)).getD 1 0] :=
  (claim_C2 0).2.1.1

end ClaimC2Pipeline

section ClaimC3

variable {K : Type} [LinearOrderedField K]

/-- The tie tolerance is nonnegative. -/
theorem tol_nonneg : (0 : K) ≤ tol := by
  unfold tol
  positivity

/-- The dz list getD agrees with the z component of the frame getD. -/
theorem dz_list_getD (d : List (Point K)) {j : ℕ} (hj : j < d.length) :
    (dz_list d).getD j 0 = (d.getD j (0, 0, 0)).2.2 :=
  getD_map_lt _ hj (0, 0, 0) 0

/-- max_dz bounds the z displacement of every frame. -/
theorem le_max_dz (d : List (Point K)) {j : ℕ} (hj : j < d.length) :
    (d.getD j (0, 0, 0)).2.2 ≤ max_dz d := by
  unfold max_dz
  apply mem_le_foldl_max
  rw [← dz_list_getD d hj]
  exact getD_mem (by simpa [dz_list] using hj) 0

/-- max_dz is attained at some frame of a nonempty list. -/
theorem max_dz_attained (d : List (Point K)) (hne : d ≠ []) :
    ∃ im, im < d.length ∧ (d.getD im (0, 0, 0)).2.2 = max_dz d := by
  have hmem : max_dz d ∈ dz_list d := by
    unfold max_dz
    apply foldl_max_self_mem
    simpa [dz_list] using hne
  rw [List.mem_iff_getElem] at hmem
  obtain ⟨im, him, heq⟩ := hmem
  have him2 : im < d.length := by simpa [dz_list] using him
  refine ⟨im, him2, ?_⟩
  rw [← dz_list_getD d him2, List.getD_eq_getElem _ _ him]
  exact heq

/-- Membership in the candidate list of the selector. -/
theorem mem_cand_list (d : List (Point K)) {j : ℕ} :
    j ∈ cand_list d ↔ j < d.length ∧ |(d.getD j (0, 0, 0)).2.2 - max_dz d| ≤ tol := by
  unfold cand_list
  rw [List.mem_filter, List.mem_range]
  constructor
  · rintro ⟨hj, hp⟩
    have hp2 := of_decide_eq_true hp
    rw [dz_list_getD d hj] at hp2
    exact ⟨hj, hp2⟩
  · rintro ⟨hj, hp⟩
    refine ⟨hj, ?_⟩
    apply decide_eq_true
    rw [dz_list_getD d hj]
    exact hp

/-- The selected candidate is a candidate and its absolute y displacement
is minimal among all candidates. -/
theorem best_cand_spec (d : List (Point K)) (hcne : cand_list d ≠ []) :
    best_cand d ∈ cand_list d ∧
    ∀ j ∈ cand_list d,
      |(d.getD (best_cand d) (0, 0, 0)).2.1| ≤ |(d.getD j (0, 0, 0)).2.1| := by
  unfold best_cand
  constructor
  · exact foldl_min_self_mem _ _ hcne
  · intro j hj
    exact ((foldl_min_spec (fun i => |(d.getD i (0, 0, 0)).2.1|) (cand_list d)
      ((cand_list d).headD 0)).2.2) j hj

/-- C3: whenever the reference leg lifts above the tolerance and the z
values are tolerance-separated (values within the tie tolerance are
equal), the selector returns a frame of maximal vertical displacement
with ties broken by minimal absolute lateral displacement; when the leg
never lifts above the tolerance the start index falls back to
length / (2 * stageCount); and the second entry candidate is the start
index plus half the trajectory length, modulo the length. -/
theorem claim_C3 (d : List (Point K)) (n stages : ℕ)
    (hsep : ∀ i < d.length, ∀ j < d.length,
      |(d.getD i (0, 0, 0)).2.2 - (d.getD j (0, 0, 0)).2.2| ≤ tol →
        (d.getD i (0, 0, 0)).2.2 = (d.getD j (0, 0, 0)).2.2)
    (hst : 1 ≤ stages) (hn : 2 ≤ n) :
    ((∃ i0 < d.length, tol < (d.getD i0 (0, 0, 0)).2.2) →
      ∃ r : ℕ, choose_start_index_from_fr d = (r : ℤ) ∧ r < d.length ∧
        (∀ j < d.length, (d.getD j (0, 0, 0)).2.2 ≤ (d.getD r (0, 0, 0)).2.2) ∧
        (∀ j < d.length, (d.getD j (0, 0, 0)).2.2 = (d.getD r (0, 0, 0)).2.2 →
          |(d.getD r (0, 0, 0)).2.1| ≤ |(d.getD j (0, 0, 0)).2.1|)) ∧
    ((∀ i0 < d.length, (d.getD i0 (0, 0, 0)).2.2 ≤ tol) →
      start_index d n stages = n / (2 * stages)) ∧
    compute_entries_core d n stages
      = [start_index d n stages, (start_index d n stages + n / 2) % n] := by
  refine ⟨?_, ?_, ?_⟩
  · rintro ⟨i0, hi0, htol⟩
    have hlen0 : 0 < d.length := by omega
    have hne : d ≠ [] := List.ne_nil_of_length_pos hlen0
    have hmaxtol : tol < max_dz d := lt_of_lt_of_le htol (le_max_dz d hi0)
    obtain ⟨im, him, himeq⟩ := max_dz_attained d hne
    have hcne : cand_list d ≠ [] := by
      intro hnil
      have hm : im ∈ cand_list d := by
        apply (mem_cand_list d).mpr
        refine ⟨him, ?_⟩
        rw [himeq]
        simpa using tol_nonneg
      rw [hnil] at hm
      cases hm
    obtain ⟨hbmem, hbmin⟩ := best_cand_spec d hcne
    obtain ⟨hblt, hbtol⟩ := (mem_cand_list d).mp hbmem
    have hbmax : (d.getD (best_cand d) (0, 0, 0)).2.2 = max_dz d := by
      have hsim : |(d.getD (best_cand d) (0, 0, 0)).2.2 - (d.getD im (0, 0, 0)).2.2| ≤ tol := by
        rw [himeq]
        exact hbtol
      have h2 := hsep (best_cand d) hblt im him hsim
      rw [h2, himeq]
    refine ⟨best_cand d, ?_, hblt, ?_, ?_⟩
    · unfold choose_start_index_from_fr
      rw [if_neg (by simpa [List.isEmpty_iff] using hne), if_neg (not_le.mpr hmaxtol)]
    · intro j hj
      rw [hbmax]
      exact le_max_dz d hj
    · intro j hj hjeq
      apply hbmin
      apply (mem_cand_list d).mpr
      refine ⟨hj, ?_⟩
      rw [hjeq, hbmax]
      simpa using tol_nonneg
  · intro hall
    have hc : choose_start_index_from_fr d = -1 := by
      unfold choose_start_index_from_fr
      by_cases hed : d.isEmpty
      · rw [if_pos hed]
      · have hne : d ≠ [] := by simpa [List.isEmpty_iff] using hed
        obtain ⟨im, him, himeq⟩ := max_dz_attained d hne
        have hmx : max_dz d ≤ tol := by
          rw [← himeq]
          exact hall im him
        rw [if_neg hed, if_pos hmx]
    have h1 : max 1 (2 * stages) = 2 * stages := by omega
    have h2 : n / (2 * stages) < n := Nat.div_lt_self (by omega) (by omega)
    simp only [start_index, hc, h1]
    rw [if_pos (by norm_num : (-1 : ℤ) < 0)]
    rw [if_neg (not_lt.mpr (Int.natCast_nonneg _))]
    rw [if_neg (not_le.mpr (by exact_mod_cast h2))]
    exact Int.toNat_natCast _
  · have hmx : max 1 n = n := by omega
    simp [compute_entries_core, hn, hmx]

/-- Witness for C3 on a concrete rational reference-leg list: the lift
maximum 3 is attained at indices 1 and 2 and the selector properties are
inhabited; the fallback and entry clauses are instantiated at length 6
with one stage. -/
theorem claim_C3_witness :
    ((∃ i0 < wdataB.length, tol < (wdataB.getD i0 (0, 0, 0)).2.2) →
      ∃ r : ℕ, choose_start_index_from_fr wdataB = (r : ℤ) ∧ r < wdataB.length ∧
        (∀ j < wdataB.length,
          (wdataB.getD j (0, 0, 0)).2.2 ≤ (wdataB.getD r (0, 0, 0)).2.2) ∧
        (∀ j < wdataB.length,
          (wdataB.getD j (0, 0, 0)).2.2 = (wdataB.getD r (0, 0, 0)).2.2 →
          |(wdataB.getD r (0, 0, 0)).2.1| ≤ |(wdataB.getD j (0, 0, 0)).2.1|)) ∧
    ((∀ i0 < wdataB.length, (wdataB.getD i0 (0, 0, 0)).2.2 ≤ tol) →
      start_index wdataB 6 1 = 6 / (2 * 1)) ∧
    compute_entries_core wdataB 6 1
      = [start_index wdataB 6 1, (start_index wdataB 6 1 + 6 / 2) % 6] :=
  claim_C3 wdataB 6 1
    (by
      intro i hi j hj
      have hi4 : i < 4 := by simpa [wdataB] using hi
      have hj4 : j < 4 := by simpa [wdataB] using hj
      interval_cases i <;> interval_cases j <;> norm_num [wdataB, tol])
    (by decide) (by decide)

end ClaimC3

end NodeHexa
